import Mathlib

/-
Verification of the chess rules engine in src/piece.py, src/game_state.py
and the move-application fragment of src/game.py.

The engine is embedded shallowly: Python objects become entries of an
indexed store (`pieces`), object references become store indices (`Nat`
ids), the 8x8 board of optional piece references becomes a nested list of
optional ids, and every mutating Python method becomes a function from
`GameState` to `GameState` (returning extra results in a pair where the
source returns a value).  Coordinates are signed integers because the
source computes with signed arithmetic such as `row - self.color`.
-/

set_option maxRecDepth 4000

namespace Chess

/-- Board coordinate as (row, col), mirroring the Python tuples. -/
abbrev Tile := Int × Int

/-- The six piece kinds of src/piece.py. -/
inductive Kind where
  | pawn
  | knight
  | bishop
  | rook
  | queen
  | king
deriving DecidableEq, Repr

/-- One Python piece object: the fields of `Piece.__init__` plus the
subclass fields (`just_moved` of `Pawn`, the two rook references of
`King`).  Fields that a given kind never uses stay at their defaults. -/
structure Piece where
  kind : Kind
  color : Int
  tile : Tile
  firstMove : Bool
  availableMoves : List Tile
  justMoved : Bool
  rookLeft : Option Nat
  rookRight : Option Nat
deriving DecidableEq, Repr

/-- The GameState of src/game_state.py: the 8x8 board grid of optional
piece ids, the store of all piece objects ever created (captured pieces
stay in the store, mirroring Python object liveness; the registries decide
which pieces are alive), the two per-color registries, and the two king
references. -/
structure GameState where
  board : List (List (Option Nat))
  pieces : List Piece
  whiteIds : List Nat
  blackIds : List Nat
  whiteKingId : Nat
  blackKingId : Nat
deriving DecidableEq, Repr

def defaultPiece : Piece :=
  { kind := .pawn, color := 1, tile := (0, 0), firstMove := true,
    availableMoves := [], justMoved := false,
    rookLeft := none, rookRight := none }

/-- Dereference a piece id in the store. -/
def getPiece (s : GameState) (pid : Nat) : Piece :=
  (s.pieces.get? pid).getD defaultPiece

/-- GameState.get_piece_at: bounds-checked board read. -/
def getCell (b : List (List (Option Nat))) (t : Tile) : Option Nat :=
  if 0 ≤ t.1 ∧ t.1 ≤ 7 ∧ 0 ≤ t.2 ∧ t.2 ≤ 7 then
    (((b.get? t.1.toNat).getD []).get? t.2.toNat).getD none
  else none

/-- Board write `board[r][c] = v` (all writes in the source happen at
in-bounds coordinates). -/
def setCell (b : List (List (Option Nat))) (t : Tile) (v : Option Nat) :
    List (List (Option Nat)) :=
  if 0 ≤ t.1 ∧ t.1 ≤ 7 ∧ 0 ≤ t.2 ∧ t.2 ≤ 7 then
    b.set t.1.toNat (((b.get? t.1.toNat).getD []).set t.2.toNat v)
  else b

def bset (s : GameState) (t : Tile) (v : Option Nat) : GameState :=
  { s with board := setCell s.board t v }

def setMoves (s : GameState) (pid : Nat) (ms : List Tile) : GameState :=
  { s with pieces := s.pieces.set pid { getPiece s pid with availableMoves := ms } }

def setTile (s : GameState) (pid : Nat) (t : Tile) : GameState :=
  { s with pieces := s.pieces.set pid { getPiece s pid with tile := t } }

def setFirst (s : GameState) (pid : Nat) (b : Bool) : GameState :=
  { s with pieces := s.pieces.set pid { getPiece s pid with firstMove := b } }

def setJust (s : GameState) (pid : Nat) (b : Bool) : GameState :=
  { s with pieces := s.pieces.set pid { getPiece s pid with justMoved := b } }

/-- GameState.get_pieces_by_color. -/
def regOf (s : GameState) (c : Int) : List Nat :=
  if c = 1 then s.whiteIds else s.blackIds

def setReg (s : GameState) (c : Int) (l : List Nat) : GameState :=
  if c = 1 then { s with whiteIds := l } else { s with blackIds := l }

/-- GameState.get_king. -/
def getKing (s : GameState) (c : Int) : Nat :=
  if c = 1 then s.whiteKingId else s.blackKingId

/-- GameState.add_piece: append to the color registry unless present. -/
def addPiece (s : GameState) (pid : Nat) : GameState :=
  let c := (getPiece s pid).color
  let r := regOf s c
  if pid ∈ r then s else setReg s c (r ++ [pid])

/-- GameState.remove_piece: drop the first occurrence from the registry. -/
def removePiece (s : GameState) (pid : Nat) : GameState :=
  let c := (getPiece s pid).color
  let r := regOf s c
  if pid ∈ r then setReg s c (r.erase pid) else s

/-- Callers such as Piece.move_piece pass a possibly-None piece to
GameState.remove_piece, which then does nothing. -/
def removePieceOpt (s : GameState) (po : Option Nat) : GameState :=
  match po with
  | some pid => removePiece s pid
  | none => s

/- ===== Move geometry (src/piece.py lines 19-122) ===== -/

def rookDirections : List Tile := [(-1, 0), (1, 0), (0, -1), (0, 1)]

def bishopDirections : List Tile := [(-1, -1), (-1, 1), (1, -1), (1, 1)]

def queenDirections : List Tile := rookDirections ++ bishopDirections

def knightOffsets : List Tile :=
  [(-2, -1), (-2, 1), (-1, -2), (-1, 2), (1, -2), (1, 2), (2, -1), (2, 1)]

/-- The 8 neighbour offsets produced by the nested range loops of
get_king_moves, in iteration order. -/
def kingOffsets : List Tile :=
  [(-1, -1), (-1, 0), (-1, 1), (0, -1), (0, 1), (1, -1), (1, 0), (1, 1)]

/-- One ray of get_linear_moves: distances 1..7 from (r, c) along
direction (dr, dc), stopping at board edge, capture, or own piece. -/
def rayWalk (s : GameState) (color : Int) (r c dr dc : Int) : Nat → List Tile
  | 0 => []
  | n + 1 =>
    let nr := r + dr
    let nc := c + dc
    if 0 ≤ nr ∧ nr ≤ 7 ∧ 0 ≤ nc ∧ nc ≤ 7 then
      match getCell s.board (nr, nc) with
      | none => (nr, nc) :: rayWalk s color nr nc dr dc n
      | some pid => if (getPiece s pid).color = -color then [(nr, nc)] else []
    else []

/-- get_linear_moves. -/
def getLinearMoves (s : GameState) (pos : Tile) (color : Int)
    (dirs : List Tile) : List Tile :=
  (dirs.map fun d => rayWalk s color pos.1 pos.2 d.1 d.2 7).flatten

/-- Shared body of get_knight_moves and get_king_moves: in-bounds offsets
whose target is empty or enemy-occupied. -/
def offsetMoves (s : GameState) (pos : Tile) (color : Int)
    (offs : List Tile) : List Tile :=
  offs.foldr (fun o acc =>
    let nr := pos.1 + o.1
    let nc := pos.2 + o.2
    if 0 ≤ nr ∧ nr ≤ 7 ∧ 0 ≤ nc ∧ nc ≤ 7 then
      match getCell s.board (nr, nc) with
      | none => (nr, nc) :: acc
      | some pid =>
        if (getPiece s pid).color = -color then (nr, nc) :: acc else acc
    else acc) []

/-- Pawn.update_possible_moves: forward push, double push on first move,
the two diagonal captures, then Pawn._check_en_passant.  Note that the
en-passant test (lines 495-500) checks only that the adjacent square
holds a pawn whose just_moved flag is set. -/
def pawnMoves (s : GameState) (p : Piece) : List Tile :=
  let row := p.tile.1
  let col := p.tile.2
  let dir := -p.color
  let newRow := row + dir
  let fwd : List Tile :=
    if 0 ≤ newRow ∧ newRow ≤ 7 then
      if getCell s.board (newRow, col) = none then
        (newRow, col) ::
          (if p.firstMove then
            let dRow := row + 2 * dir
            if (0 ≤ dRow ∧ dRow ≤ 7) ∧ getCell s.board (dRow, col) = none then
              [(dRow, col)]
            else []
          else [])
      else []
    else []
  let caps : List Tile :=
    [(-1 : Int), 1].foldr (fun off acc =>
      let nc := col + off
      if (0 ≤ nc ∧ nc ≤ 7) ∧ (0 ≤ newRow ∧ newRow ≤ 7) then
        match getCell s.board (newRow, nc) with
        | some tid =>
          if (getPiece s tid).color = -p.color then (newRow, nc) :: acc else acc
        | none => acc
      else acc) []
  let ep : List Tile :=
    [(-1 : Int), 1].foldr (fun off acc =>
      let nc := col + off
      if 0 ≤ nc ∧ nc ≤ 7 then
        match getCell s.board (row, nc) with
        | some aid =>
          let a := getPiece s aid
          if a.kind = Kind.pawn ∧ a.justMoved then (row - p.color, nc) :: acc
          else acc
        | none => acc
      else acc) []
  fwd ++ caps ++ ep

/-- King._tiles_empty. -/
def tilesEmpty (s : GameState) (ts : List Tile) : Bool :=
  ts.all fun t => decide (getCell s.board t = none)

/-- King._tiles_not_attacked: adds the home king square and scans the
opponent registry pieces, reading their current availableMoves caches
without recomputing them. -/
def tilesNotAttacked (s : GameState) (color : Int) (ts : List Tile) : Bool :=
  let ts2 : List Tile :=
    if color = 1 then ts ++ [((7 : Int), (4 : Int))]
    else ts ++ [((0 : Int), (4 : Int))]
  let opps := if color = 1 then regOf s (-1) else regOf s 1
  opps.all fun pid => ts2.all fun t =>
    decide (t ∉ (getPiece s pid).availableMoves)

/-- King._check_castling (lines 582-600).  Note that beyond the two
first-move flags it checks only emptiness of the in-between squares and
the attack test; it never checks that the referenced rook is still on the
board or in a registry. -/
def checkCastling (s : GameState) (p : Piece) : List Tile :=
  if p.firstMove then
    let row : Int := if p.color = 1 then 7 else 0
    let kingside : List Tile :=
      match p.rookRight with
      | some rid =>
        if (getPiece s rid).firstMove then
          if tilesEmpty s [(row, 5), (row, 6)]
              && tilesNotAttacked s p.color [(row, 5), (row, 6)] then
            [(row, 6)]
          else []
        else []
      | none => []
    let queenside : List Tile :=
      match p.rookLeft with
      | some rid =>
        if (getPiece s rid).firstMove then
          if tilesEmpty s [(row, 1), (row, 2), (row, 3)]
              && tilesNotAttacked s p.color [(row, 2), (row, 3)] then
            [(row, 2)]
          else []
        else []
      | none => []
    kingside ++ queenside
  else []

/-- The kind dispatch of update_possible_moves over the six subclasses. -/
def computeMoves (s : GameState) (pid : Nat) : List Tile :=
  let p := getPiece s pid
  match p.kind with
  | .pawn => pawnMoves s p
  | .knight => offsetMoves s p.tile p.color knightOffsets
  | .bishop => getLinearMoves s p.tile p.color bishopDirections
  | .rook => getLinearMoves s p.tile p.color rookDirections
  | .queen => getLinearMoves s p.tile p.color queenDirections
  | .king => offsetMoves s p.tile p.color kingOffsets ++ checkCastling s p

/-- piece.update_possible_moves(): overwrite the availableMoves cache. -/
def updatePossibleMoves (s : GameState) (pid : Nat) : GameState :=
  setMoves s pid (computeMoves s pid)

/-- Piece.get_mod_move. -/
def getModMove (s : GameState) (t : Tile) : String :=
  match getCell s.board t with
  | some _ => "capture"
  | none => "move"

/- ===== Check detection (src/piece.py lines 262-310) ===== -/

/-- Loop body of king_in_chess: recompute each enemy registry piece in
turn and stop at the first whose move set holds the king tile.  The
recomputations mutate the pieces, so the state is threaded. -/
def kingInChessAux (kid : Nat) : GameState → List Nat → GameState × Bool
  | s, [] => (s, false)
  | s, pid :: rest =>
    let s1 := updatePossibleMoves s pid
    if (getPiece s1 kid).tile ∈ (getPiece s1 pid).availableMoves then (s1, true)
    else kingInChessAux kid s1 rest

/-- Piece.king_in_chess. -/
def kingInChess (s : GameState) (kid : Nat) : GameState × Bool :=
  kingInChessAux kid s (regOf s (-(getPiece s kid).color))

/-- Loop body of get_piece_that_check, analogous to kingInChessAux. -/
def pieceThatCheckAux (kid : Nat) : GameState → List Nat → GameState × Option Nat
  | s, [] => (s, none)
  | s, pid :: rest =>
    let s1 := updatePossibleMoves s pid
    if (getPiece s1 kid).tile ∈ (getPiece s1 pid).availableMoves then (s1, some pid)
    else pieceThatCheckAux kid s1 rest

/-- Piece.get_piece_that_check. -/
def getPieceThatCheck (s : GameState) (movedColor : Int) :
    GameState × Option Nat :=
  pieceThatCheckAux (getKing s (-movedColor)) s (regOf s movedColor)

/-- Piece.player_cant_move: pure read of the cached move sets. -/
def playerCantMove (s : GameState) (c : Int) : Bool :=
  (regOf s c).all fun pid => decide ((getPiece s pid).availableMoves = [])

/- ===== Legality filter (src/piece.py lines 312-403) ===== -/

/-- Inner loop of removes_moves_that_doesnt_protect_king (lines 329-339):
for each candidate move other than the checker tile, place the defender
piece on it (the origin is not vacated in this function), recompute the
checker, and record the move when the checker still reaches the king. -/
def protectLoop (kid checkerId oppId : Nat) (checkTile : Tile) :
    GameState → List Tile → List Tile → GameState × List Tile
  | s, rem, [] => (s, rem)
  | s, rem, m :: ms =>
    if m = checkTile then protectLoop kid checkerId oppId checkTile s rem ms
    else
      let saved := getCell s.board m
      let s1 := bset s m (some oppId)
      let s2 := updatePossibleMoves s1 checkerId
      let rem2 :=
        if (getPiece s2 kid).tile ∈ (getPiece s2 checkerId).availableMoves then
          rem ++ [m]
        else rem
      let s3 := bset s2 m saved
      protectLoop kid checkerId oppId checkTile s3 rem2 ms

/-- The single-check else branch of removes_moves_that_doesnt_protect_king
(lines 328-342): run the simulation loop, re-write the defender origin
cell (line 341), and filter the recorded moves out. -/
def protectElse (s3 : GameState) (kid checkerId oppId : Nat) (ct : Tile) :
    GameState :=
  let lp := protectLoop kid checkerId oppId ct s3 []
    (getPiece s3 oppId).availableMoves
  let s6 := bset lp.1 (getPiece lp.1 oppId).tile (some oppId)
  setMoves s6 oppId
    ((getPiece s6 oppId).availableMoves.filter fun m => decide (m ∉ lp.2))

/-- Piece.removes_moves_that_doesnt_protect_king (lines 312-346). -/
def removesMovesThatDoesntProtectKing (s : GameState) (movedColor : Int)
    (oppId checkerId : Nat) : GameState :=
  let kid := getKing s (-movedColor)
  let checkTile := (getPiece s checkerId).tile
  let s1 := bset s checkTile none
  let s2 := removePiece s1 checkerId
  let res := kingInChess s2 kid
  let s4 :=
    if res.2 then setMoves res.1 oppId []
    else protectElse res.1 kid checkerId oppId checkTile
  let s7 := bset s4 checkTile (some checkerId)
  addPiece s7 checkerId

/-- Innermost loop of remove_moves_that_puts_king_in_chess (lines
364-373): try each defender destination with the defender origin vacated
and record the ones from which the attacker reaches the king. -/
def pinSimLoop (kid attackerId oppId : Nat) :
    GameState → List Tile → List Tile → GameState × List Tile
  | s, rem, [] => (s, rem)
  | s, rem, m :: ms =>
    let saved := getCell s.board m
    let s1 := bset s m (some oppId)
    let s2 := updatePossibleMoves s1 attackerId
    let rem2 :=
      if (getPiece s2 kid).tile ∈ (getPiece s2 attackerId).availableMoves then
        rem ++ [m]
      else rem
    let s3 := bset s2 m saved
    pinSimLoop kid attackerId oppId s3 rem2 ms

/-- Middle loop of remove_moves_that_puts_king_in_chess (lines 356-376):
only attackers whose recomputed move set holds the defender tile trigger
the simulation. -/
def pinAttackerLoop (kid oppId : Nat) :
    GameState → List Tile → List Nat → GameState × List Tile
  | s, rem, [] => (s, rem)
  | s, rem, aid :: rest =>
    let s1 := updatePossibleMoves s aid
    if (getPiece s1 oppId).tile ∈ (getPiece s1 aid).availableMoves then
      let oppTile := (getPiece s1 oppId).tile
      let s2 := bset s1 oppTile none
      let lp := pinSimLoop kid aid oppId s2 rem (getPiece s2 oppId).availableMoves
      let s3 := bset lp.1 oppTile (some oppId)
      pinAttackerLoop kid oppId s3 lp.2 rest
    else pinAttackerLoop kid oppId s1 rem rest

/-- Outer loop of remove_moves_that_puts_king_in_chess (lines 353-378). -/
def pinDefenderLoop (kid : Nat) (attackers : List Nat) :
    GameState → List Nat → GameState
  | s, [] => s
  | s, oppId :: rest =>
    let lp := pinAttackerLoop kid oppId s [] attackers
    let s1 := setMoves lp.1 oppId
      ((getPiece lp.1 oppId).availableMoves.filter fun m => decide (m ∉ lp.2))
    pinDefenderLoop kid attackers s1 rest

/-- Piece.remove_moves_that_puts_king_in_chess (lines 348-378). -/
def removeMovesThatPutsKingInChess (s : GameState) (movedColor : Int) :
    GameState :=
  pinDefenderLoop (getKing s (-movedColor)) (regOf s movedColor) s
    (regOf s (-movedColor))

/-- One iteration of the loop of remove_moves_of_king_that_chess_him
(lines 389-398): place the king on the candidate square (its tile field
included), run king_in_chess, put the saved cell content back.  The king
tile field is not restored here; the function restores it after the
loop. -/
def kingSimBody (kid : Nat) (s : GameState) (m : Tile) : GameState × Bool :=
  let saved := getCell s.board m
  let s1 := bset s m (some kid)
  let s2 := setTile s1 kid m
  let res := kingInChess s2 kid
  (bset res.1 m saved, res.2)

def kingSimLoop (kid : Nat) :
    GameState → List Tile → List Tile → GameState × List Tile
  | s, rem, [] => (s, rem)
  | s, rem, m :: ms =>
    let r := kingSimBody kid s m
    kingSimLoop kid r.1 (if r.2 then rem ++ [m] else rem) ms

/-- Piece.remove_moves_of_king_that_chess_him (lines 380-403). -/
def removeMovesOfKingThatChessHim (s : GameState) (kid : Nat) : GameState :=
  let kt := (getPiece s kid).tile
  let s1 := bset s kt none
  let lp := kingSimLoop kid s1 [] (getPiece s1 kid).availableMoves
  let s2 := setTile lp.1 kid kt
  let s3 := bset s2 kt (some kid)
  setMoves s3 kid
    ((getPiece s3 kid).availableMoves.filter fun m => decide (m ∉ lp.2))

/-- First loop of update_available_moves: recompute every defender
pseudo-legal move set. -/
def updateAll : GameState → List Nat → GameState
  | s, [] => s
  | s, pid :: rest => updateAll (updatePossibleMoves s pid) rest

/-- The in-check loop of update_available_moves (lines 433-445),
including the early checkmate return tested after every defender. -/
def checkLoop (movedColor : Int) : GameState → List Nat → GameState × String
  | s, [] => (s, "check")
  | s, oppId :: rest =>
    let s1 :=
      if oppId = getKing s (-movedColor) then
        removeMovesOfKingThatChessHim s oppId
      else
        let pc := getPieceThatCheck s movedColor
        match pc.2 with
        | some checkerId =>
          removesMovesThatDoesntProtectKing pc.1 movedColor oppId checkerId
        | none => pc.1
    if playerCantMove s1 (-movedColor) then (s1, "checkmate")
    else checkLoop movedColor s1 rest

/-- Piece.update_available_moves (lines 405-445): the turn classifier.
Returns "move" (continue), "check", "checkmate" or "stalemate". -/
def updateAvailableMoves (s : GameState) (movedId : Nat) : GameState × String :=
  let mc := (getPiece s movedId).color
  let s1 := updateAll s (regOf s (-mc))
  let kid := getKing s1 (-mc)
  let res := kingInChess s1 kid
  if res.2 = false then
    let s3 := removeMovesThatPutsKingInChess res.1 mc
    let s4 := removeMovesOfKingThatChessHim s3 kid
    if playerCantMove s4 (-mc) then (s4, "stalemate") else (s4, "move")
  else
    checkLoop mc res.1 (regOf res.1 (-mc))

/- ===== Move executor (src/piece.py lines 218-246, 502-541, 602-628) ===== -/

/-- Piece.move_piece: classify before mutating, remove any captured
piece, update the two board cells, the tile field, and the first-move
flag. -/
def movePieceBase (s : GameState) (pid : Nat) (cur new : Tile) :
    GameState × String :=
  let mod := getModMove s new
  let eaten := getCell s.board new
  let s1 := removePieceOpt s eaten
  let s2 := bset s1 new (some pid)
  let s3 := bset s2 cur none
  let s4 := setTile s3 pid new
  let s5 := if (getPiece s4 pid).firstMove then setFirst s4 pid false else s4
  (s5, mod)

/-- Pawn.move_piece (lines 502-541): promotion when the destination row
is 0 or 7 (classification taken before the substitution, queen created
with first_move already false); otherwise the just_moved update followed
by the en-passant removal when moving diagonally onto an empty square. -/
def movePiecePawn (s : GameState) (pid : Nat) (cur new : Tile) :
    GameState × String :=
  let p := getPiece s pid
  if new.1 = 0 ∨ new.1 = 7 then
    let mod := getModMove s new
    let newId := s.pieces.length
    let q : Piece :=
      { kind := .queen, color := p.color, tile := new, firstMove := false,
        availableMoves := [], justMoved := false,
        rookLeft := none, rookRight := none }
    let s1 := { s with pieces := s.pieces ++ [q] }
    let s2 :=
      match getCell s1.board new with
      | some e => removePiece s1 e
      | none => s1
    let s3 := removePiece s2 pid
    let s4 := addPiece s3 newId
    let s5 := bset s4 new (some newId)
    let s6 := bset s5 cur none
    (s6, mod)
  else
    let s1 :=
      if (new.1 - cur.1).natAbs = 2 ∧ p.firstMove then setJust s pid true
      else setJust s pid false
    let s2 :=
      if getCell s1.board new = none ∧ new.2 ≠ cur.2 then
        let vict := getCell s1.board (new.1 + p.color, new.2)
        bset (removePieceOpt s1 vict) (new.1 + p.color, new.2) none
      else s1
    movePieceBase s2 pid cur new

/-- King.move_piece (lines 602-628): on a first move to column 6 or 2 the
corner rook is relocated and the tag is "castling".  When the corner is
empty the source would raise an AttributeError on rook.tile; that path is
modelled as the plain move (it is never exercised here). -/
def movePieceKing (s : GameState) (pid : Nat) (cur new : Tile) :
    GameState × String :=
  let row := new.1
  if (getPiece s pid).firstMove then
    if new.2 = 6 then
      match getCell s.board (row, 7) with
      | some rid =>
        let s1 := bset s (row, 5) (some rid)
        let s2 := bset s1 (row, 7) none
        let s3 := setTile s2 rid (row, 5)
        let s4 := setFirst s3 rid false
        ((movePieceBase s4 pid cur new).1, "castling")
      | none => ((movePieceBase s pid cur new).1, "castling")
    else if new.2 = 2 then
      match getCell s.board (row, 0) with
      | some rid =>
        let s1 := bset s (row, 3) (some rid)
        let s2 := bset s1 (row, 0) none
        let s3 := setTile s2 rid (row, 3)
        let s4 := setFirst s3 rid false
        ((movePieceBase s4 pid cur new).1, "castling")
      | none => ((movePieceBase s pid cur new).1, "castling")
    else movePieceBase s pid cur new
  else movePieceBase s pid cur new

/-- The move_piece virtual dispatch (Knight, Rook, Bishop, Queen use the
base implementation). -/
def movePieceById (s : GameState) (pid : Nat) (cur new : Tile) :
    GameState × String :=
  match (getPiece s pid).kind with
  | .pawn => movePiecePawn s pid cur new
  | .king => movePieceKing s pid cur new
  | _ => movePieceBase s pid cur new

/- ===== Turn controller fragment of src/game.py (lines 397-454) ===== -/

/-- The GameState effects of one attempted half-move in Game.run: if the
requested destination is in the available-move set of the piece at the
source tile, execute move_piece and then update_available_moves for the
defender and return both tags; otherwise (lines 450-454) the GameState is
left untouched (the source only resets UI selection fields there; a click
on an empty tile never reaches this code path). -/
def applyMoveRequest (s : GameState) (src dst : Tile) :
    GameState × Option (String × String) :=
  match getCell s.board src with
  | none => (s, none)
  | some pid =>
    if dst ∈ (getPiece s pid).availableMoves then
      let r1 := movePieceById s pid src dst
      let r2 := updateAvailableMoves r1.1 pid
      (r2.1, some (r1.2, r2.2))
    else (s, none)

/-- A legal half-move as the game loop executes it, returning none for a
request the loop rejects. -/
def playMove (s : GameState) (src dst : Tile) :
    Option (GameState × String × String) :=
  match getCell s.board src with
  | none => none
  | some pid =>
    if dst ∈ (getPiece s pid).availableMoves then
      let r1 := movePieceById s pid src dst
      let r2 := updateAvailableMoves r1.1 pid
      some (r2.1, r1.2, r2.2)
    else none

/-- playMove with a fallback, convenient for chaining concrete games. -/
def playMoveD (s : GameState) (src dst : Tile) : GameState :=
  match playMove s src dst with
  | some r => r.1
  | none => s

/- ===== Initial position (src/game_state.py setup_initial_position) ===== -/

/-- A fresh piece of the given kind, colour and square, as the
constructors build it. -/
def mkPiece (k : Kind) (c : Int) (t : Tile) : Piece :=
  { kind := k, color := c, tile := t, firstMove := true,
    availableMoves := [], justMoved := false,
    rookLeft := none, rookRight := none }

/-- The standard 32-piece setup.  Ids 0-7 black back rank (columns 0-7),
8-15 black pawns, 16-23 white pawns, 24-31 white back rank; the
registries list black row 0 then row 1 and white row 6 then row 7, in
column order, exactly as setup_initial_position populates them. -/
def initialState : GameState :=
  { board :=
      [[some 0, some 1, some 2, some 3, some 4, some 5, some 6, some 7],
       [some 8, some 9, some 10, some 11, some 12, some 13, some 14, some 15],
       [none, none, none, none, none, none, none, none],
       [none, none, none, none, none, none, none, none],
       [none, none, none, none, none, none, none, none],
       [none, none, none, none, none, none, none, none],
       [some 16, some 17, some 18, some 19, some 20, some 21, some 22, some 23],
       [some 24, some 25, some 26, some 27, some 28, some 29, some 30, some 31]],
    pieces :=
      [mkPiece .rook (-1) (0, 0), mkPiece .knight (-1) (0, 1),
       mkPiece .bishop (-1) (0, 2), mkPiece .queen (-1) (0, 3),
       { mkPiece .king (-1) (0, 4) with rookLeft := some 0, rookRight := some 7 },
       mkPiece .bishop (-1) (0, 5), mkPiece .knight (-1) (0, 6),
       mkPiece .rook (-1) (0, 7),
       mkPiece .pawn (-1) (1, 0), mkPiece .pawn (-1) (1, 1),
       mkPiece .pawn (-1) (1, 2), mkPiece .pawn (-1) (1, 3),
       mkPiece .pawn (-1) (1, 4), mkPiece .pawn (-1) (1, 5),
       mkPiece .pawn (-1) (1, 6), mkPiece .pawn (-1) (1, 7),
       mkPiece .pawn 1 (6, 0), mkPiece .pawn 1 (6, 1),
       mkPiece .pawn 1 (6, 2), mkPiece .pawn 1 (6, 3),
       mkPiece .pawn 1 (6, 4), mkPiece .pawn 1 (6, 5),
       mkPiece .pawn 1 (6, 6), mkPiece .pawn 1 (6, 7),
       mkPiece .rook 1 (7, 0), mkPiece .knight 1 (7, 1),
       mkPiece .bishop 1 (7, 2), mkPiece .queen 1 (7, 3),
       { mkPiece .king 1 (7, 4) with rookLeft := some 24, rookRight := some 31 },
       mkPiece .bishop 1 (7, 5), mkPiece .knight 1 (7, 6),
       mkPiece .rook 1 (7, 7)],
    whiteIds := [16, 17, 18, 19, 20, 21, 22, 23, 24, 25, 26, 27, 28, 29, 30, 31],
    blackIds := [0, 1, 2, 3, 4, 5, 6, 7, 8, 9, 10, 11, 12, 13, 14, 15],
    whiteKingId := 28,
    blackKingId := 4 }

/-- Game.update_moves_first_turn: compute the white move sets before the
first ply. -/
def gameStart : GameState := updateAll initialState initialState.whiteIds

/- ===== Spec-side simulation (refinement comparison for §4.3) ===== -/

/-- The legality test spelled out by the spec (§4.3 steps 3-4): simulate
the move by relocating the piece to the destination and vacating its
origin — with the §4.4 capture semantics, so a piece standing on the
destination is removed from its registry — then re-test whether the
moving side's king is attacked, attack meaning that some enemy registry
piece's recomputed pseudo-legal move set holds the king tile (the same
attack notion the code uses).  This definition follows the spec's words
and is compared against the code's filter. -/
def specKingAttackedAfterMove (s : GameState) (pid : Nat) (dst : Tile) : Bool :=
  let origin := (getPiece s pid).tile
  let s1 := removePieceOpt s (getCell s.board dst)
  let s2 := bset s1 dst (some pid)
  let s3 := bset s2 origin none
  let s4 := setTile s3 pid dst
  (kingInChess s4 (getKing s4 (getPiece s4 pid).color)).2

/- ===== Concrete scenario positions ===== -/

/-- An empty board row. -/
def emptyRow : List (Option Nat) := [none, none, none, none, none, none, none, none]

/-- C1 scenario: white pawn 0 on (6,4) about to double-advance, white
king 1 on (7,4), black knight 2 on (0,1), black pawn 3 already on (4,3)
(adjacent to the double-move destination), black king 4 on (0,7). -/
def c1State : GameState :=
  { board :=
      [[none, some 2, none, none, none, none, none, some 4],
       emptyRow, emptyRow, emptyRow,
       [none, none, none, some 3, none, none, none, none],
       emptyRow,
       [none, none, none, none, some 0, none, none, none],
       [none, none, none, none, some 1, none, none, none]],
    pieces :=
      [mkPiece .pawn 1 (6, 4),
       { mkPiece .king 1 (7, 4) with firstMove := false },
       mkPiece .knight (-1) (0, 1),
       { mkPiece .pawn (-1) (4, 3) with firstMove := false },
       { mkPiece .king (-1) (0, 7) with firstMove := false }],
    whiteIds := [0, 1], blackIds := [2, 3, 4],
    whiteKingId := 1, blackKingId := 4 }

/-- c1State after the white move sets are computed, as the game loop does
before the first ply. -/
def c1Start : GameState := updateAll c1State c1State.whiteIds

def c1s1 : GameState := playMoveD c1Start (6, 4) (4, 4)

def c1s2 : GameState := playMoveD c1s1 (0, 1) (2, 2)

def c1s3 : GameState := playMoveD c1s2 (7, 4) (7, 5)

/-- C2 scenario: white king 0 on (7,4), white rook 1 on (6,4) pinned by
the black rook 2 on (1,4); black king 3 on (0,0).  Capturing the pinning
rook along the pin file is a legal chess move here. -/
def c2State : GameState :=
  { board :=
      [[some 3, none, none, none, none, none, none, none],
       [none, none, none, none, some 2, none, none, none],
       emptyRow, emptyRow, emptyRow, emptyRow,
       [none, none, none, none, some 1, none, none, none],
       [none, none, none, none, some 0, none, none, none]],
    pieces :=
      [{ mkPiece .king 1 (7, 4) with firstMove := false },
       mkPiece .rook 1 (6, 4),
       mkPiece .rook (-1) (1, 4),
       { mkPiece .king (-1) (0, 0) with firstMove := false }],
    whiteIds := [0, 1], blackIds := [2, 3],
    whiteKingId := 0, blackKingId := 3 }

/-- The classification pass on c2State with black (piece 3) as the side
that just moved, so white is the defender being filtered. -/
def c2After : GameState := (updateAvailableMoves c2State 3).1

/-- C3 scenario: white king 0 on (7,4) in check from the black knight 3
on (5,5); the white knight 1 on (6,3) can capture the checker but is
pinned by the black bishop 2 on (5,2); black king 4 on (0,0). -/
def c3State : GameState :=
  { board :=
      [[some 4, none, none, none, none, none, none, none],
       emptyRow, emptyRow, emptyRow, emptyRow,
       [none, none, some 2, none, none, some 3, none, none],
       [none, none, none, some 1, none, none, none, none],
       [none, none, none, none, some 0, none, none, none]],
    pieces :=
      [{ mkPiece .king 1 (7, 4) with firstMove := false },
       mkPiece .knight 1 (6, 3),
       mkPiece .bishop (-1) (5, 2),
       mkPiece .knight (-1) (5, 5),
       { mkPiece .king (-1) (0, 0) with firstMove := false }],
    whiteIds := [0, 1], blackIds := [2, 3, 4],
    whiteKingId := 0, blackKingId := 4 }

/-- The classification pass on c3State with black (piece 2) as the side
that just moved. -/
def c3After : GameState := (updateAvailableMoves c3State 2).1

/-- C4 scenario: white king 0 on (7,4), never moved, whose kingside rook
reference 1 points at a rook that has been captured: piece 1 is neither
on the board nor in the white registry, yet its first-move flag is still
true.  The black king 2 is far away with a current move cache that does
not touch the kingside squares. -/
def c4State : GameState :=
  { board :=
      [[some 2, none, none, none, none, none, none, none],
       emptyRow, emptyRow, emptyRow, emptyRow, emptyRow, emptyRow,
       [none, none, none, none, some 0, none, none, none]],
    pieces :=
      [{ mkPiece .king 1 (7, 4) with rookRight := some 1 },
       mkPiece .rook 1 (7, 7),
       { mkPiece .king (-1) (0, 0) with firstMove := false, availableMoves := [(0, 1), (1, 0), (1, 1)] }],
    whiteIds := [0], blackIds := [2],
    whiteKingId := 0, blackKingId := 2 }

def c4After : GameState := updatePossibleMoves c4State 0

/-- C5 scenario: the position after the nine legal plies
(6,4)-(4,4), (1,3)-(3,3), (4,4)-(3,4), (0,4)-(1,3), (7,1)-(5,2),
(0,6)-(2,5), (5,2)-(4,4), (2,5)-(0,6), (4,4)-(2,3)
from the standard initial position: the black d-pawn 11 still carries
just_moved from ply 2, the white e-pawn 20 stands beside it on (3,4),
and the white knight 25 occupies (2,3), the square behind the black
pawn.  Only the move cache that the next ply reads (the black g8 knight
6, about to play (0,6)-(2,5)) is populated; the caches the engine
overwrites before reading are left empty. -/
def c5State : GameState :=
  { board :=
      [[some 0, some 1, some 2, some 3, none, some 5, some 6, some 7],
       [some 8, some 9, some 10, some 4, some 12, some 13, some 14, some 15],
       [none, none, none, some 25, none, none, none, none],
       [none, none, none, some 11, some 20, none, none, none],
       emptyRow, emptyRow,
       [some 16, some 17, some 18, some 19, none, some 21, some 22, some 23],
       [some 24, none, some 26, some 27, some 28, some 29, some 30, some 31]],
    pieces :=
      [mkPiece .rook (-1) (0, 0), mkPiece .knight (-1) (0, 1),
       mkPiece .bishop (-1) (0, 2), mkPiece .queen (-1) (0, 3),
       { mkPiece .king (-1) (1, 3) with firstMove := false, rookLeft := some 0, rookRight := some 7 },
       mkPiece .bishop (-1) (0, 5),
       { mkPiece .knight (-1) (0, 6) with firstMove := false, availableMoves := [(2, 5), (2, 7)] },
       mkPiece .rook (-1) (0, 7),
       mkPiece .pawn (-1) (1, 0), mkPiece .pawn (-1) (1, 1),
       mkPiece .pawn (-1) (1, 2),
       { mkPiece .pawn (-1) (3, 3) with firstMove := false, justMoved := true },
       mkPiece .pawn (-1) (1, 4), mkPiece .pawn (-1) (1, 5),
       mkPiece .pawn (-1) (1, 6), mkPiece .pawn (-1) (1, 7),
       mkPiece .pawn 1 (6, 0), mkPiece .pawn 1 (6, 1),
       mkPiece .pawn 1 (6, 2), mkPiece .pawn 1 (6, 3),
       { mkPiece .pawn 1 (3, 4) with firstMove := false },
       mkPiece .pawn 1 (6, 5), mkPiece .pawn 1 (6, 6), mkPiece .pawn 1 (6, 7),
       mkPiece .rook 1 (7, 0),
       { mkPiece .knight 1 (2, 3) with firstMove := false },
       mkPiece .bishop 1 (7, 2), mkPiece .queen 1 (7, 3),
       { mkPiece .king 1 (7, 4) with rookLeft := some 24, rookRight := some 31 },
       mkPiece .bishop 1 (7, 5), mkPiece .knight 1 (7, 6), mkPiece .rook 1 (7, 7)],
    whiteIds := [16, 17, 18, 19, 20, 21, 22, 23, 24, 25, 26, 27, 28, 29, 30, 31],
    blackIds := [0, 1, 2, 3, 4, 5, 6, 7, 8, 9, 10, 11, 12, 13, 14, 15],
    whiteKingId := 28,
    blackKingId := 4 }

/-- Executing the tenth ply (0,6)-(2,5) of the C5 game and checking the
resulting white legal sets: the white e-pawn keeps the en-passant
destination (2,3) although the white knight occupies (2,3). -/
def c5check : Bool :=
  match playMove c5State (0, 6) (2, 5) with
  | some r =>
    decide (((2 : Int), (3 : Int)) ∈ (getPiece r.1 20).availableMoves) &&
    decide (getCell r.1.board (2, 3) = some 25) &&
    decide ((getPiece r.1 25).color = 1) &&
    decide ((getPiece r.1 20).color = 1) &&
    decide ((getPiece r.1 20).kind = Kind.pawn)
  | none => false

/-- C6 counterexample position: white king 0 on (7,4) whose cached move
set holds (7,5); black rook 1 on (0,5) with an empty cache; black king 2
on (0,0). -/
def c6State : GameState :=
  { board :=
      [[some 2, none, none, none, none, some 1, none, none],
       emptyRow, emptyRow, emptyRow, emptyRow, emptyRow, emptyRow,
       [none, none, none, none, some 0, none, none, none]],
    pieces :=
      [{ mkPiece .king 1 (7, 4) with firstMove := false, availableMoves := [(7, 5)] },
       mkPiece .rook (-1) (0, 5),
       { mkPiece .king (-1) (0, 0) with firstMove := false }],
    whiteIds := [0], blackIds := [1, 2],
    whiteKingId := 0, blackKingId := 2 }

/-- The state in which the simulate-and-restore body of
remove_moves_of_king_that_chess_him runs on c6State: the king square has
been vacated by the lines before the loop. -/
def c6Pre : GameState := bset c6State (7, 4) none

/-- C7 witness position: white king 0 on (7,4) under double check from
the black rook 2 on (7,0) and the black knight 3 on (5,3); the white
rook 1 on (3,0) is the non-king defender piece; black king 4 on (0,7). -/
def c7State : GameState :=
  { board :=
      [[none, none, none, none, none, none, none, some 4],
       emptyRow, emptyRow,
       [some 1, none, none, none, none, none, none, none],
       emptyRow,
       [none, none, none, some 3, none, none, none, none],
       emptyRow,
       [some 2, none, none, none, some 0, none, none, none]],
    pieces :=
      [{ mkPiece .king 1 (7, 4) with firstMove := false },
       { mkPiece .rook 1 (3, 0) with availableMoves := [(3, 1), (2, 0)] },
       mkPiece .rook (-1) (7, 0),
       mkPiece .knight (-1) (5, 3),
       { mkPiece .king (-1) (0, 7) with firstMove := false }],
    whiteIds := [0, 1], blackIds := [2, 3, 4],
    whiteKingId := 0, blackKingId := 4 }

/-- C8 witness position: white pawn 0 on (1,3) one step from promotion,
white king 1 on (7,4), black king 2 on (0,0). -/
def c8State : GameState :=
  { board :=
      [[some 2, none, none, none, none, none, none, none],
       [none, none, none, some 0, none, none, none, none],
       emptyRow, emptyRow, emptyRow, emptyRow, emptyRow,
       [none, none, none, none, some 1, none, none, none]],
    pieces :=
      [{ mkPiece .pawn 1 (1, 3) with firstMove := false },
       { mkPiece .king 1 (7, 4) with firstMove := false },
       { mkPiece .king (-1) (0, 0) with firstMove := false }],
    whiteIds := [0, 1], blackIds := [2],
    whiteKingId := 1, blackKingId := 2 }

/-- C10 witness position: white pawn 0 on (3,4) beside the black pawn 1
on (3,3) whose just-double-moved flag is set; kings far away. -/
def c10State : GameState :=
  { board :=
      [[some 3, none, none, none, none, none, none, none],
       emptyRow, emptyRow,
       [none, none, none, some 1, some 0, none, none, none],
       emptyRow, emptyRow, emptyRow,
       [none, none, none, none, some 2, none, none, none]],
    pieces :=
      [{ mkPiece .pawn 1 (3, 4) with firstMove := false },
       { mkPiece .pawn (-1) (3, 3) with firstMove := false, justMoved := true },
       { mkPiece .king 1 (7, 4) with firstMove := false },
       { mkPiece .king (-1) (0, 0) with firstMove := false }],
    whiteIds := [0, 2], blackIds := [1, 3],
    whiteKingId := 2, blackKingId := 3 }

/-- C9 witness position: a white rook 0 on (4,4) with a computed move
cache, kings far away. -/
def c9State : GameState :=
  { board :=
      [[some 2, none, none, none, none, none, none, none],
       emptyRow, emptyRow, emptyRow,
       [none, none, none, none, some 0, none, none, none],
       emptyRow, emptyRow,
       [none, none, none, none, some 1, none, none, none]],
    pieces :=
      [{ mkPiece .rook 1 (4, 4) with availableMoves := [(3, 4), (2, 4)] },
       { mkPiece .king 1 (7, 4) with firstMove := false },
       { mkPiece .king (-1) (0, 0) with firstMove := false }],
    whiteIds := [0, 1], blackIds := [2],
    whiteKingId := 1, blackKingId := 2 }

/-- Witness position for the second half of the amended C6: white king 0
on (7,4) in check from the black rook 2 on (7,0); the white rook 1 on
(5,0) is the defender piece being filtered; black king 3 on (0,7). -/
def c6bState : GameState :=
  { board :=
      [[none, none, none, none, none, none, none, some 3],
       emptyRow, emptyRow, emptyRow, emptyRow,
       [some 1, none, none, none, none, none, none, none],
       emptyRow,
       [some 2, none, none, none, some 0, none, none, none]],
    pieces :=
      [{ mkPiece .king 1 (7, 4) with firstMove := false },
       { mkPiece .rook 1 (5, 0) with availableMoves := [(5, 1), (4, 0)] },
       mkPiece .rook (-1) (7, 0),
       { mkPiece .king (-1) (0, 7) with firstMove := false }],
    whiteIds := [0, 1], blackIds := [2, 3],
    whiteKingId := 0, blackKingId := 3 }

/-- Well-formed board shape: 8 rows of 8 cells. -/
@[reducible] def BoardOK (b : List (List (Option Nat))) : Prop :=
  b.length = 8 ∧ ∀ r ∈ b, r.length = 8

/-- The piece fields other than the availableMoves cache. -/
structure Core where
  kind : Kind
  color : Int
  tile : Tile
  firstMove : Bool
  justMoved : Bool
  rookLeft : Option Nat
  rookRight : Option Nat
deriving DecidableEq, Repr

def coreOf (p : Piece) : Core :=
  { kind := p.kind, color := p.color, tile := p.tile,
    firstMove := p.firstMove, justMoved := p.justMoved,
    rookLeft := p.rookLeft, rookRight := p.rookRight }

/-- coreOf with the tile normalised away, for loop invariants where one
designated piece has its tile temporarily rewritten. -/
def coreNT (p : Piece) : Core := { coreOf p with tile := (0, 0) }

/-- Store agreement up to the availableMoves caches and the tile of the
piece kid. -/
def AgreeK (kid : Nat) (src cur : List Piece) : Prop :=
  src.map coreNT = cur.map coreNT ∧
  ∀ j, j ≠ kid → (src.get? j).map Piece.tile = (cur.get? j).map Piece.tile

/- ===== Theorems ===== -/

/- List update lemmas used throughout the restoration proofs. -/

theorem lset_oob {α : Type} (l : List α) (i : Nat) (a : α) (h : l.length ≤ i) :
    l.set i a = l := by
  induction l generalizing i with
  | nil => rfl
  | cons x xs ih =>
    cases i with
    | zero => simp at h
    | succ n =>
      simp only [List.set]
      rw [ih n (by simpa using h)]

theorem lget_set_self {α : Type} (l : List α) (i : Nat) (a : α)
    (h : i < l.length) : (l.set i a).get? i = some a := by
  induction l generalizing i with
  | nil => simp at h
  | cons x xs ih =>
    cases i with
    | zero => rfl
    | succ n =>
      simp only [List.set, List.get?]
      exact ih n (by simpa using h)

theorem lget_set_ne {α : Type} (l : List α) (i j : Nat) (a : α)
    (h : i ≠ j) : (l.set i a).get? j = l.get? j := by
  induction l generalizing i j with
  | nil => rfl
  | cons x xs ih =>
    cases i with
    | zero =>
      cases j with
      | zero => exact absurd rfl h
      | succ m => rfl
    | succ n =>
      cases j with
      | zero => rfl
      | succ m =>
        simp only [List.set, List.get?]
        exact ih n m (fun hnm => h (by rw [hnm]))

theorem lset_set {α : Type} (l : List α) (i : Nat) (a b : α) :
    (l.set i a).set i b = l.set i b := by
  induction l generalizing i with
  | nil => rfl
  | cons x xs ih =>
    cases i with
    | zero => rfl
    | succ n => simp only [List.set]; rw [ih]

theorem lset_getD {α : Type} (l : List α) (i : Nat) (d : α) :
    l.set i ((l.get? i).getD d) = l := by
  induction l generalizing i with
  | nil => rfl
  | cons x xs ih =>
    cases i with
    | zero => rfl
    | succ n => simp only [List.set, List.get?]; rw [ih]

theorem lset_of_get {α : Type} (l : List α) (i : Nat) (a : α)
    (h : l.get? i = some a) : l.set i a = l := by
  have := lset_getD l i a
  rw [h] at this
  exact this

theorem lmap_set {α β : Type} (f : α → β) (l : List α) (i : Nat) (a : α) :
    (l.set i a).map f = (l.map f).set i (f a) := by
  induction l generalizing i with
  | nil => rfl
  | cons x xs ih =>
    cases i with
    | zero => rfl
    | succ n => simp only [List.set, List.map]; rw [ih]

/- Board cell lemmas. -/

theorem setCell_setCell (b : List (List (Option Nat))) (t : Tile)
    (v w : Option Nat) : setCell (setCell b t w) t v = setCell b t v := by
  unfold setCell
  by_cases h : 0 ≤ t.1 ∧ t.1 ≤ 7 ∧ 0 ≤ t.2 ∧ t.2 ≤ 7
  · simp only [if_pos h]
    by_cases hr : t.1.toNat < b.length
    · rw [lget_set_self _ _ _ hr]
      simp only [Option.getD_some]
      rw [lset_set, lset_set]
    · rw [lset_oob _ _ _ (Nat.le_of_not_lt hr)]
  · simp only [if_neg h]

theorem setCell_getCell (b : List (List (Option Nat))) (t : Tile) :
    setCell b t (getCell b t) = b := by
  unfold setCell getCell
  by_cases h : 0 ≤ t.1 ∧ t.1 ≤ 7 ∧ 0 ≤ t.2 ∧ t.2 ≤ 7
  · simp only [if_pos h]
    rw [lset_getD, lset_getD]
  · simp only [if_neg h]

theorem setCell_known (b : List (List (Option Nat))) (t : Tile) (x : Option Nat)
    (h : getCell b t = x) : setCell b t x = b := by
  rw [← h]; exact setCell_getCell b t

theorem getCell_setCell_ne (b : List (List (Option Nat))) (t t' : Tile)
    (v : Option Nat) (hne : t ≠ t') :
    getCell (setCell b t' v) t = getCell b t := by
  obtain ⟨r, c⟩ := t
  obtain ⟨r', c'⟩ := t'
  unfold setCell getCell
  by_cases h' : 0 ≤ r' ∧ r' ≤ 7 ∧ 0 ≤ c' ∧ c' ≤ 7
  · simp only [if_pos h']
    by_cases h : 0 ≤ r ∧ r ≤ 7 ∧ 0 ≤ c ∧ c ≤ 7
    · simp only [if_pos h]
      by_cases hr : r.toNat = r'.toNat
      · obtain ⟨h1, h2, h3, h4⟩ := h
        obtain ⟨h5, h6, h7, h8⟩ := h'
        have hreq : r = r' := by omega
        have hcne : c ≠ c' := by
          intro hc
          exact hne (by rw [hreq, hc])
        have hcn : c.toNat ≠ c'.toNat := by omega
        by_cases hlen : r'.toNat < b.length
        · rw [hr, lget_set_self _ _ _ hlen]
          simp only [Option.getD_some]
          rw [lget_set_ne _ _ _ _ (fun e => hcn e.symm)]
        · rw [lset_oob _ _ _ (Nat.le_of_not_lt hlen)]
      · rw [lget_set_ne _ _ _ _ (fun e => hr e.symm)]
    · simp only [if_neg h]
  · simp only [if_neg h']

theorem getCell_setCell_self (b : List (List (Option Nat))) (t : Tile)
    (v : Option Nat) (hb : BoardOK b)
    (h : 0 ≤ t.1 ∧ t.1 ≤ 7 ∧ 0 ≤ t.2 ∧ t.2 ≤ 7) :
    getCell (setCell b t v) t = v := by
  obtain ⟨hlen, hrow⟩ := hb
  obtain ⟨h1, h2, h3, h4⟩ := h
  have hr : t.1.toNat < b.length := by omega
  have hrmem : (b.get? t.1.toNat).getD [] ∈ b := by
    cases hg : b.get? t.1.toNat with
    | none => exact absurd (List.get?_eq_none.mp hg) (by omega)
    | some row => exact List.get?_mem hg
  have hc : t.2.toNat < ((b.get? t.1.toNat).getD []).length := by
    rw [hrow _ hrmem]; omega
  unfold setCell getCell
  simp only [if_pos (by exact ⟨h1, h2, h3, h4⟩ :
    0 ≤ t.1 ∧ t.1 ≤ 7 ∧ 0 ≤ t.2 ∧ t.2 ≤ 7)]
  rw [lget_set_self _ _ _ hr]
  simp only [Option.getD_some]
  rw [lget_set_self _ _ _ hc]
  rfl

theorem boardOK_setCell (b : List (List (Option Nat))) (t : Tile)
    (v : Option Nat) (hb : BoardOK b) : BoardOK (setCell b t v) := by
  obtain ⟨hlen, hrow⟩ := hb
  unfold setCell
  by_cases h : 0 ≤ t.1 ∧ t.1 ≤ 7 ∧ 0 ≤ t.2 ∧ t.2 ≤ 7
  · simp only [if_pos h]
    constructor
    · rw [List.length_set]; exact hlen
    · intro r hr
      rcases List.mem_or_eq_of_mem_set hr with hmem | heq
      · exact hrow _ hmem
      · subst heq
        rw [List.length_set]
        cases hg : b.get? t.1.toNat with
        | none =>
          obtain ⟨h1, h2, h3, h4⟩ := h
          exact absurd (List.get?_eq_none.mp hg) (by omega)
        | some row =>
          simp only [hg, Option.getD_some]
          exact hrow _ (List.get?_mem hg)
  · simp only [if_neg h]; exact ⟨hlen, hrow⟩

/- Store frame lemmas. -/

theorem map_f_set_preserve {β : Type} (f : Piece → β) (P : List Piece)
    (pid : Nat) (p : Piece) (h : ∀ q, P.get? pid = some q → f p = f q) :
    (P.set pid p).map f = P.map f := by
  rw [lmap_set]
  cases hg : P.get? pid with
  | none =>
    exact lset_oob _ _ _
      (by simpa [List.length_map] using List.get?_eq_none.mp hg)
  | some q =>
    rw [h q hg]
    exact lset_of_get _ _ _ (by rw [List.get?_map, hg]; rfl)

theorem setMoves_cores (s : GameState) (pid : Nat) (m : List Tile) :
    (setMoves s pid m).pieces.map coreOf = s.pieces.map coreOf := by
  unfold setMoves
  exact map_f_set_preserve coreOf _ _ _
    (fun q hq => by unfold getPiece; rw [hq]; rfl)

theorem setTile_coresNT (s : GameState) (pid : Nat) (t : Tile) :
    (setTile s pid t).pieces.map coreNT = s.pieces.map coreNT := by
  unfold setTile
  exact map_f_set_preserve coreNT _ _ _
    (fun q hq => by unfold getPiece; rw [hq]; rfl)

theorem cores_coresNT {P Q : List Piece}
    (h : P.map coreOf = Q.map coreOf) : P.map coreNT = Q.map coreNT := by
  have h1 : P.map coreNT = (P.map coreOf).map fun c => { c with tile := ((0 : Int), (0 : Int)) } := by
    rw [List.map_map]; rfl
  have h2 : Q.map coreNT = (Q.map coreOf).map fun c => { c with tile := ((0 : Int), (0 : Int)) } := by
    rw [List.map_map]; rfl
  rw [h1, h2, h]

theorem cores_get_core {P Q : List Piece} (h : P.map coreOf = Q.map coreOf)
    (j : Nat) : (P.get? j).map coreOf = (Q.get? j).map coreOf := by
  rw [← List.get?_map, ← List.get?_map, h]

theorem cores_tile {P Q : List Piece} (h : P.map coreOf = Q.map coreOf)
    (j : Nat) : (P.get? j).map Piece.tile = (Q.get? j).map Piece.tile := by
  have := cores_get_core h j
  cases hp : P.get? j with
  | none =>
    cases hq : Q.get? j with
    | none => rfl
    | some q => rw [hp, hq] at this; exact absurd this (by simp)
  | some p =>
    cases hq : Q.get? j with
    | none => rw [hp, hq] at this; exact absurd this (by simp)
    | some q =>
      rw [hp, hq] at this
      simp only [Option.map] at this ⊢
      have hc : coreOf p = coreOf q := Option.some.inj this
      have ht : p.tile = q.tile := congrArg Core.tile hc
      rw [ht]

theorem kingInChessAux_frame (kid : Nat) : ∀ (l : List Nat) (s : GameState),
    (kingInChessAux kid s l).1.board = s.board ∧
    (kingInChessAux kid s l).1.whiteIds = s.whiteIds ∧
    (kingInChessAux kid s l).1.blackIds = s.blackIds ∧
    (kingInChessAux kid s l).1.pieces.map coreOf = s.pieces.map coreOf := by
  intro l
  induction l with
  | nil => intro s; exact ⟨rfl, rfl, rfl, rfl⟩
  | cons pid rest ih =>
    intro s
    simp only [kingInChessAux]
    split
    · exact ⟨rfl, rfl, rfl, setMoves_cores s pid _⟩
    · obtain ⟨ihb, ihw, ihk, ihc⟩ := ih (updatePossibleMoves s pid)
      exact ⟨ihb, ihw, ihk, ihc.trans (setMoves_cores s pid _)⟩

theorem protectLoop_frame (kid checkerId oppId : Nat) (ct : Tile) :
    ∀ (ms : List Tile) (s : GameState) (rem : List Tile),
    (protectLoop kid checkerId oppId ct s rem ms).1.board = s.board ∧
    (protectLoop kid checkerId oppId ct s rem ms).1.whiteIds = s.whiteIds ∧
    (protectLoop kid checkerId oppId ct s rem ms).1.blackIds = s.blackIds ∧
    (protectLoop kid checkerId oppId ct s rem ms).1.pieces.map coreOf
      = s.pieces.map coreOf := by
  intro ms
  induction ms with
  | nil => intro s rem; exact ⟨rfl, rfl, rfl, rfl⟩
  | cons m rest ih =>
    intro s rem
    simp only [protectLoop]
    split
    · exact ih s rem
    · set s3 := bset (updatePossibleMoves (bset s m (some oppId)) checkerId) m
        (getCell s.board m) with hs3
      have hb3 : s3.board = s.board := by
        show setCell (updatePossibleMoves (bset s m (some oppId)) checkerId).board
          m (getCell s.board m) = s.board
        have : (updatePossibleMoves (bset s m (some oppId)) checkerId).board
            = setCell s.board m (some oppId) := rfl
        rw [this, setCell_setCell, setCell_getCell]
      have hc3 : s3.pieces.map coreOf = s.pieces.map coreOf := by
        show (updatePossibleMoves (bset s m (some oppId)) checkerId).pieces.map coreOf
          = s.pieces.map coreOf
        exact setMoves_cores _ _ _
      obtain ⟨ihb, ihw, ihk, ihc⟩ := ih s3 _
      exact ⟨ihb.trans hb3, ihw, ihk, ihc.trans hc3⟩

theorem agreeK_refl (kid : Nat) (P : List Piece) : AgreeK kid P P :=
  ⟨rfl, fun _ _ => rfl⟩

theorem agreeK_trans {kid : Nat} {P Q R : List Piece}
    (h1 : AgreeK kid P Q) (h2 : AgreeK kid Q R) : AgreeK kid P R :=
  ⟨h1.1.trans h2.1, fun j hj => (h1.2 j hj).trans (h2.2 j hj)⟩

theorem agreeK_of_cores {kid : Nat} {Q R : List Piece}
    (h : Q.map coreOf = R.map coreOf) : AgreeK kid Q R :=
  ⟨cores_coresNT h, fun j _ => cores_tile h j⟩

theorem agreeK_setTile (s : GameState) (kid : Nat) (t : Tile) :
    AgreeK kid s.pieces (setTile s kid t).pieces := by
  constructor
  · exact (setTile_coresNT s kid t).symm
  · intro j hj
    show (s.pieces.get? j).map Piece.tile
      = ((s.pieces.set kid _).get? j).map Piece.tile
    rw [lget_set_ne _ _ _ _ (fun e => hj e.symm)]

theorem kingSimBody_frame (kid : Nat) (s : GameState) (m : Tile) :
    (kingSimBody kid s m).1.board = s.board ∧
    (kingSimBody kid s m).1.whiteIds = s.whiteIds ∧
    (kingSimBody kid s m).1.blackIds = s.blackIds ∧
    AgreeK kid s.pieces (kingSimBody kid s m).1.pieces := by
  unfold kingSimBody
  obtain ⟨kb, kw, kk, kc⟩ :=
    kingInChessAux_frame kid
      (regOf (setTile (bset s m (some kid)) kid m)
        (-(getPiece (setTile (bset s m (some kid)) kid m) kid).color))
      (setTile (bset s m (some kid)) kid m)
  refine ⟨?_, ?_, ?_, ?_⟩
  · show setCell _ m (getCell s.board m) = s.board
    rw [show (kingInChess (setTile (bset s m (some kid)) kid m) kid).1.board
        = (setTile (bset s m (some kid)) kid m).board from kb, show
        (setTile (bset s m (some kid)) kid m).board
        = setCell s.board m (some kid) from rfl]
    rw [setCell_setCell, setCell_getCell]
  · exact kw
  · exact kk
  · exact agreeK_trans (agreeK_setTile (bset s m (some kid)) kid m)
      (agreeK_of_cores kc.symm)

theorem kingSimLoop_frame (kid : Nat) : ∀ (ms : List Tile) (s : GameState)
    (rem : List Tile),
    (kingSimLoop kid s rem ms).1.board = s.board ∧
    (kingSimLoop kid s rem ms).1.whiteIds = s.whiteIds ∧
    (kingSimLoop kid s rem ms).1.blackIds = s.blackIds ∧
    AgreeK kid s.pieces (kingSimLoop kid s rem ms).1.pieces := by
  intro ms
  induction ms with
  | nil => intro s rem; exact ⟨rfl, rfl, rfl, agreeK_refl kid s.pieces⟩
  | cons m rest ih =>
    intro s rem
    simp only [kingSimLoop]
    obtain ⟨bb, bw, bk, bA⟩ := kingSimBody_frame kid s m
    obtain ⟨ihb, ihw, ihk, ihA⟩ := ih (kingSimBody kid s m).1 _
    exact ⟨ihb.trans bb, ihw.trans bw, ihk.trans bk, agreeK_trans bA ihA⟩

theorem kingInChess_frame (s : GameState) (kid : Nat) :
    (kingInChess s kid).1.board = s.board ∧
    (kingInChess s kid).1.whiteIds = s.whiteIds ∧
    (kingInChess s kid).1.blackIds = s.blackIds ∧
    (kingInChess s kid).1.pieces.map coreOf = s.pieces.map coreOf :=
  kingInChessAux_frame kid _ s

theorem mapf_get {β : Type} (f : Piece → β) {P Q : List Piece}
    (h : P.map f = Q.map f) (j : Nat) :
    (P.get? j).map f = (Q.get? j).map f := by
  rw [← List.get?_map, ← List.get?_map, h]

theorem coreOf_eq_of_parts {p q : Piece} (h1 : coreNT p = coreNT q)
    (h2 : p.tile = q.tile) : coreOf p = coreOf q := by
  have hp : coreOf p = { coreNT p with tile := p.tile } := rfl
  have hq : coreOf q = { coreNT q with tile := q.tile } := rfl
  rw [hp, hq, h1, h2]

theorem cores_of_agree {kid : Nat} {P Q : List Piece} (hA : AgreeK kid P Q)
    (ht : (P.get? kid).map Piece.tile = (Q.get? kid).map Piece.tile) :
    P.map coreOf = Q.map coreOf := by
  apply List.ext
  intro j
  rw [List.get?_map, List.get?_map]
  have hnt := mapf_get coreNT hA.1 j
  have htj : (P.get? j).map Piece.tile = (Q.get? j).map Piece.tile := by
    by_cases hj : j = kid
    · subst hj; exact ht
    · exact hA.2 j hj
  cases hp : P.get? j with
  | none =>
    cases hq : Q.get? j with
    | none => rfl
    | some q => rw [hp, hq] at hnt; exact absurd hnt (by simp)
  | some p =>
    cases hq : Q.get? j with
    | none => rw [hp, hq] at hnt; exact absurd hnt (by simp)
    | some q =>
      rw [hp, hq] at hnt htj
      simp only [Option.map] at hnt htj ⊢
      exact congrArg some
        (coreOf_eq_of_parts (Option.some.inj hnt) (Option.some.inj htj))

theorem cores_getPiece_core {P Q : List Piece}
    (h : P.map coreOf = Q.map coreOf) (j : Nat) :
    coreOf ((P.get? j).getD defaultPiece) = coreOf ((Q.get? j).getD defaultPiece) := by
  have := mapf_get coreOf h j
  cases hp : P.get? j with
  | none =>
    cases hq : Q.get? j with
    | none => rfl
    | some q => rw [hp, hq] at this; exact absurd this (by simp)
  | some p =>
    cases hq : Q.get? j with
    | none => rw [hp, hq] at this; exact absurd this (by simp)
    | some q =>
      rw [hp, hq] at this
      simp only [Option.map] at this
      simpa using Option.some.inj this

theorem removePiece_frame (s : GameState) (pid : Nat) :
    (removePiece s pid).board = s.board ∧
    (removePiece s pid).pieces = s.pieces ∧
    (removePiece s pid).whiteKingId = s.whiteKingId ∧
    (removePiece s pid).blackKingId = s.blackKingId := by
  unfold removePiece setReg
  dsimp only
  split
  · split <;> exact ⟨rfl, rfl, rfl, rfl⟩
  · exact ⟨rfl, rfl, rfl, rfl⟩

theorem addPiece_frame (s : GameState) (pid : Nat) :
    (addPiece s pid).board = s.board ∧
    (addPiece s pid).pieces = s.pieces ∧
    (addPiece s pid).whiteKingId = s.whiteKingId ∧
    (addPiece s pid).blackKingId = s.blackKingId := by
  unfold addPiece setReg
  dsimp only
  split
  · exact ⟨rfl, rfl, rfl, rfl⟩
  · split <;> exact ⟨rfl, rfl, rfl, rfl⟩

theorem removePiece_white (s : GameState) (pid : Nat) :
    (removePiece s pid).whiteIds =
      if (getPiece s pid).color = 1 then s.whiteIds.erase pid
      else s.whiteIds := by
  unfold removePiece regOf setReg
  by_cases hc : (getPiece s pid).color = 1
  · simp only [hc, if_pos rfl, if_true]
    by_cases hm : pid ∈ s.whiteIds
    · simp [hm]
    · simp [hm, List.erase_of_not_mem hm]
  · simp only [if_neg hc]
    by_cases hm : pid ∈ s.blackIds <;> simp [hm]

theorem removePiece_black (s : GameState) (pid : Nat) :
    (removePiece s pid).blackIds =
      if (getPiece s pid).color = 1 then s.blackIds
      else s.blackIds.erase pid := by
  unfold removePiece regOf setReg
  by_cases hc : (getPiece s pid).color = 1
  · simp only [hc, if_pos rfl, if_true]
    by_cases hm : pid ∈ s.whiteIds <;> simp [hm]
  · simp only [if_neg hc]
    by_cases hm : pid ∈ s.blackIds
    · simp [hm]
    · simp [hm, List.erase_of_not_mem hm]

theorem addPiece_white (s : GameState) (pid : Nat) :
    (addPiece s pid).whiteIds =
      if (getPiece s pid).color = 1 ∧ pid ∉ s.whiteIds then s.whiteIds ++ [pid]
      else s.whiteIds := by
  unfold addPiece regOf setReg
  by_cases hc : (getPiece s pid).color = 1
  · simp only [hc, if_pos rfl, if_true]
    by_cases hm : pid ∈ s.whiteIds <;> simp [hm]
  · simp only [if_neg hc]
    by_cases hm : pid ∈ s.blackIds <;> simp [hm, hc]

theorem addPiece_black (s : GameState) (pid : Nat) :
    (addPiece s pid).blackIds =
      if (getPiece s pid).color ≠ 1 ∧ pid ∉ s.blackIds then s.blackIds ++ [pid]
      else s.blackIds := by
  unfold addPiece regOf setReg
  by_cases hc : (getPiece s pid).color = 1
  · simp only [hc, if_pos rfl, if_true]
    by_cases hm : pid ∈ s.whiteIds <;> simp [hm, hc]
  · simp only [if_neg hc]
    by_cases hm : pid ∈ s.blackIds <;> simp [hm, hc]

theorem erase_append_mem_iff {l : List Nat} {a : Nat} (hnd : l.Nodup)
    (ha : a ∈ l) (x : Nat) : (x ∈ l.erase a ++ [a]) ↔ x ∈ l := by
  simp only [List.mem_append, List.mem_singleton]
  constructor
  · rintro (hx | rfl)
    · exact List.mem_of_mem_erase hx
    · exact ha
  · intro hx
    by_cases hxa : x = a
    · right; exact hxa
    · left; exact (List.Nodup.mem_erase_iff hnd).mpr ⟨hxa, hx⟩

theorem protectElse_frame (s3 : GameState) (kid checkerId oppId : Nat)
    (ct : Tile)
    (hcell : getCell s3.board (getPiece s3 oppId).tile = some oppId) :
    (protectElse s3 kid checkerId oppId ct).board = s3.board ∧
    (protectElse s3 kid checkerId oppId ct).whiteIds = s3.whiteIds ∧
    (protectElse s3 kid checkerId oppId ct).blackIds = s3.blackIds ∧
    (protectElse s3 kid checkerId oppId ct).pieces.map coreOf
      = s3.pieces.map coreOf := by
  obtain ⟨lb, lw, lk, lc⟩ := protectLoop_frame kid checkerId oppId ct
    (getPiece s3 oppId).availableMoves s3 []
  set LP := protectLoop kid checkerId oppId ct s3 []
    (getPiece s3 oppId).availableMoves with hLP
  have htile : (getPiece LP.1 oppId).tile = (getPiece s3 oppId).tile := by
    have := cores_getPiece_core lc oppId
    exact congrArg Core.tile this
  refine ⟨?_, ?_, ?_, ?_⟩
  · show setCell LP.1.board (getPiece LP.1 oppId).tile (some oppId) = s3.board
    rw [htile, lb]
    exact setCell_known _ _ _ hcell
  · exact lw
  · exact lk
  · exact (setMoves_cores _ _ _).trans lc

/-- Restoration property of remove_moves_of_king_that_chess_him: the
board grid, both registries and every piece field other than the
availableMoves caches return to their pre-call values. -/
theorem kingFilterRestore (s : GameState) (kid : Nat)
    (hc : getCell s.board (getPiece s kid).tile = some kid) :
    (removeMovesOfKingThatChessHim s kid).board = s.board ∧
    (removeMovesOfKingThatChessHim s kid).whiteIds = s.whiteIds ∧
    (removeMovesOfKingThatChessHim s kid).blackIds = s.blackIds ∧
    (removeMovesOfKingThatChessHim s kid).pieces.map coreOf
      = s.pieces.map coreOf := by
  obtain ⟨lb, lw, lk, lA⟩ := kingSimLoop_frame kid
    (getPiece (bset s (getPiece s kid).tile none) kid).availableMoves
    (bset s (getPiece s kid).tile none) []
  set kt := (getPiece s kid).tile with hkt
  set L := (kingSimLoop kid (bset s kt none) []
    (getPiece (bset s kt none) kid).availableMoves).1 with hL
  have hAg : AgreeK kid s.pieces (setTile L kid kt).pieces :=
    agreeK_trans lA (agreeK_setTile L kid kt)
  have hlen : s.pieces.length = L.pieces.length := by
    have := congrArg List.length hAg.1
    simpa [List.length_map, setTile, List.length_set] using this
  have htile : (s.pieces.get? kid).map Piece.tile
      = ((setTile L kid kt).pieces.get? kid).map Piece.tile := by
    show (s.pieces.get? kid).map Piece.tile
      = ((L.pieces.set kid { getPiece L kid with tile := kt }).get? kid).map Piece.tile
    by_cases hl : kid < L.pieces.length
    · rw [lget_set_self _ _ _ hl]
      cases hg : s.pieces.get? kid with
      | none =>
        exact absurd (List.get?_eq_none.mp hg) (by omega)
      | some p =>
        have : kt = p.tile := by
          rw [hkt]; unfold getPiece; rw [hg]; rfl
        simp only [Option.map, this]
    · rw [lset_oob _ _ _ (Nat.le_of_not_lt hl)]
      have h1 : s.pieces.get? kid = none := List.get?_eq_none.mpr (by omega)
      have h2 : L.pieces.get? kid = none :=
        List.get?_eq_none.mpr (Nat.le_of_not_lt hl)
      rw [h1, h2]
  have hcores : (setTile L kid kt).pieces.map coreOf = s.pieces.map coreOf :=
    (cores_of_agree hAg htile).symm
  refine ⟨?_, ?_, ?_, ?_⟩
  · show setCell (setTile L kid kt).board kt (some kid) = s.board
    rw [show (setTile L kid kt).board = L.board from rfl, lb]
    show setCell (setCell s.board kt none) kt (some kid) = s.board
    rw [setCell_setCell]
    exact setCell_known _ _ _ hc
  · exact lw
  · exact lk
  · exact (setMoves_cores _ _ _).trans hcores

set_option maxHeartbeats 1000000 in
/-- Restoration property of removes_moves_that_doesnt_protect_king: the
board grid and the non-cache piece fields are restored exactly, and the
registries keep the same members (the checking piece is re-registered at
the end of its registry, so only the order may change). -/
theorem protectFilterRestore (s : GameState) (mc : Int) (oppId checkerId : Nat)
    (h1 : getCell s.board (getPiece s checkerId).tile = some checkerId)
    (h2 : getCell s.board (getPiece s oppId).tile = some oppId)
    (h3 : (getPiece s oppId).tile ≠ (getPiece s checkerId).tile)
    (h4 : checkerId ∈ regOf s (getPiece s checkerId).color)
    (h5 : (regOf s (getPiece s checkerId).color).Nodup) :
    (removesMovesThatDoesntProtectKing s mc oppId checkerId).board = s.board ∧
    (removesMovesThatDoesntProtectKing s mc oppId checkerId).pieces.map coreOf
      = s.pieces.map coreOf ∧
    (∀ x, x ∈ (removesMovesThatDoesntProtectKing s mc oppId checkerId).whiteIds
      ↔ x ∈ s.whiteIds) ∧
    (∀ x, x ∈ (removesMovesThatDoesntProtectKing s mc oppId checkerId).blackIds
      ↔ x ∈ s.blackIds) := by
  set kid := getKing s (-mc) with hkid
  set ct := (getPiece s checkerId).tile with hct
  set s2 := removePiece (bset s ct none) checkerId with hs2
  obtain ⟨r2b, r2p, _, _⟩ := removePiece_frame (bset s ct none) checkerId
  have hs2b : s2.board = setCell s.board ct none := r2b
  have hs2p : s2.pieces = s.pieces := r2p
  have hs2w : s2.whiteIds =
      if (getPiece s checkerId).color = 1 then s.whiteIds.erase checkerId
      else s.whiteIds := removePiece_white (bset s ct none) checkerId
  have hs2k : s2.blackIds =
      if (getPiece s checkerId).color = 1 then s.blackIds
      else s.blackIds.erase checkerId := removePiece_black (bset s ct none) checkerId
  obtain ⟨kb, kw, kk, kc⟩ := kingInChess_frame s2 kid
  set res := kingInChess s2 kid with hres
  have hs4 : ∀ s4 : GameState,
      s4.board = setCell s.board ct none →
      s4.pieces.map coreOf = s.pieces.map coreOf →
      s4.whiteIds = s2.whiteIds →
      s4.blackIds = s2.blackIds →
      (addPiece (bset s4 ct (some checkerId)) checkerId).board = s.board ∧
      (addPiece (bset s4 ct (some checkerId)) checkerId).pieces.map coreOf
        = s.pieces.map coreOf ∧
      (∀ x, x ∈ (addPiece (bset s4 ct (some checkerId)) checkerId).whiteIds
        ↔ x ∈ s.whiteIds) ∧
      (∀ x, x ∈ (addPiece (bset s4 ct (some checkerId)) checkerId).blackIds
        ↔ x ∈ s.blackIds) := by
    intro s4 hb hp hw hk
    obtain ⟨ab, ap, _, _⟩ := addPiece_frame (bset s4 ct (some checkerId)) checkerId
    have hcolor : (getPiece (bset s4 ct (some checkerId)) checkerId).color
        = (getPiece s checkerId).color := by
      have : getPiece (bset s4 ct (some checkerId)) checkerId = getPiece s4 checkerId := rfl
      rw [this]
      exact congrArg Core.color (cores_getPiece_core hp checkerId)
    refine ⟨?_, ?_, ?_, ?_⟩
    · rw [ab]
      show setCell s4.board ct (some checkerId) = s.board
      rw [hb, setCell_setCell]
      exact setCell_known _ _ _ h1
    · rw [show (addPiece (bset s4 ct (some checkerId)) checkerId).pieces
        = s4.pieces from ap]
      exact hp
    · intro x
      rw [addPiece_white]
      by_cases hcol : (getPiece s checkerId).color = 1
      · have hwm : checkerId ∈ s.whiteIds := by
          have := h4
          unfold regOf at this; rw [if_pos hcol] at this; exact this
        have hwn : s.whiteIds.Nodup := by
          have := h5; unfold regOf at this; rw [if_pos hcol] at this; exact this
        have hbw : (bset s4 ct (some checkerId)).whiteIds = s.whiteIds.erase checkerId := by
          show s4.whiteIds = _
          rw [hw, hs2w, if_pos hcol]
        have hnm : checkerId ∉ (bset s4 ct (some checkerId)).whiteIds := by
          rw [hbw]
          intro hmem
          exact absurd ((List.Nodup.mem_erase_iff hwn).mp hmem).1 (by simp)
        rw [if_pos ⟨by rw [hcolor]; exact hcol, hnm⟩, hbw]
        exact erase_append_mem_iff hwn hwm x
      · have hbw : (bset s4 ct (some checkerId)).whiteIds = s.whiteIds := by
          show s4.whiteIds = _
          rw [hw, hs2w, if_neg hcol]
        rw [if_neg (by rw [hcolor, hbw]; tauto), hbw]
    · intro x
      rw [addPiece_black]
      by_cases hcol : (getPiece s checkerId).color = 1
      · have hbk : (bset s4 ct (some checkerId)).blackIds = s.blackIds := by
          show s4.blackIds = _
          rw [hk, hs2k, if_pos hcol]
        rw [if_neg (by rw [hcolor, hbk]; tauto), hbk]
      · have hkm : checkerId ∈ s.blackIds := by
          have := h4; unfold regOf at this; rw [if_neg hcol] at this; exact this
        have hkn : s.blackIds.Nodup := by
          have := h5; unfold regOf at this; rw [if_neg hcol] at this; exact this
        have hbk : (bset s4 ct (some checkerId)).blackIds = s.blackIds.erase checkerId := by
          show s4.blackIds = _
          rw [hk, hs2k, if_neg hcol]
        have hnm : checkerId ∉ (bset s4 ct (some checkerId)).blackIds := by
          rw [hbk]
          intro hmem
          exact absurd ((List.Nodup.mem_erase_iff hkn).mp hmem).1 (by simp)
        rw [if_pos ⟨by rw [hcolor]; exact hcol, hnm⟩, hbk]
        exact erase_append_mem_iff hkn hkm x
  have hEq : removesMovesThatDoesntProtectKing s mc oppId checkerId
      = addPiece (bset (if res.2 then setMoves res.1 oppId []
          else protectElse res.1 kid checkerId oppId ct) ct (some checkerId))
          checkerId := rfl
  rw [hEq]
  by_cases hdc : res.2
  · rw [if_pos hdc]
    exact hs4 (setMoves res.1 oppId [])
      (by show res.1.board = _; rw [kb, hs2b])
      ((setMoves_cores _ _ _).trans (by rw [kc, hs2p]))
      (by show res.1.whiteIds = _; rw [kw])
      (by show res.1.blackIds = _; rw [kk])
  · rw [if_neg hdc]
    have hcell3 : getCell res.1.board (getPiece res.1 oppId).tile = some oppId := by
      have htile : (getPiece res.1 oppId).tile = (getPiece s oppId).tile := by
        have hcp : res.1.pieces.map coreOf = s.pieces.map coreOf := by
          rw [kc, hs2p]
        exact congrArg Core.tile (cores_getPiece_core hcp oppId)
      rw [htile, kb, hs2b, getCell_setCell_ne _ _ _ _ h3]
      exact h2
    obtain ⟨pb, pw, pk, pc⟩ := protectElse_frame res.1 kid checkerId oppId ct hcell3
    exact hs4 (protectElse res.1 kid checkerId oppId ct)
      (by rw [pb, kb, hs2b])
      (pc.trans (by rw [kc, hs2p]))
      (by rw [pw]; show res.1.whiteIds = _; rw [kw])
      (by rw [pk]; show res.1.blackIds = _; rw [kk])

theorem getCell_oob (b : List (List (Option Nat))) (t : Tile)
    (h : ¬(0 ≤ t.1 ∧ t.1 ≤ 7 ∧ 0 ≤ t.2 ∧ t.2 ≤ 7)) : getCell b t = none := by
  unfold getCell; rw [if_neg h]

theorem getCell_some_bounds (b : List (List (Option Nat))) (t : Tile)
    (x : Nat) (h : getCell b t = some x) :
    0 ≤ t.1 ∧ t.1 ≤ 7 ∧ 0 ≤ t.2 ∧ t.2 ≤ 7 := by
  by_contra hb
  rw [getCell_oob b t hb] at h
  exact Option.noConfusion h

theorem lget_append_left {α : Type} (l r : List α) (i : Nat)
    (h : i < l.length) : (l ++ r).get? i = l.get? i := by
  induction l generalizing i with
  | nil => simp at h
  | cons x xs ih =>
    cases i with
    | zero => rfl
    | succ n => simpa using ih n (by simpa using h)

theorem lget_append_len {α : Type} (l : List α) (a : α) :
    (l ++ [a]).get? l.length = some a := by
  induction l with
  | nil => rfl
  | cons x xs ih => simpa using ih

theorem removePiece_regOf_self (s : GameState) (pid : Nat) :
    regOf (removePiece s pid) ((getPiece s pid).color)
      = (regOf s ((getPiece s pid).color)).erase pid := by
  by_cases hc : (getPiece s pid).color = 1
  · rw [show regOf (removePiece s pid) ((getPiece s pid).color)
        = (removePiece s pid).whiteIds by unfold regOf; rw [if_pos hc]]
    rw [show regOf s ((getPiece s pid).color) = s.whiteIds by
      unfold regOf; rw [if_pos hc]]
    rw [removePiece_white, if_pos hc]
  · rw [show regOf (removePiece s pid) ((getPiece s pid).color)
        = (removePiece s pid).blackIds by unfold regOf; rw [if_neg hc]]
    rw [show regOf s ((getPiece s pid).color) = s.blackIds by
      unfold regOf; rw [if_neg hc]]
    rw [removePiece_black, if_neg hc]

theorem removePiece_regOf_subset (s : GameState) (pid : Nat) (c : Int)
    (x : Nat) (hx : x ∈ regOf (removePiece s pid) c) : x ∈ regOf s c := by
  by_cases hcc : c = 1
  · rw [show regOf (removePiece s pid) c = (removePiece s pid).whiteIds by
      unfold regOf; rw [if_pos hcc]] at hx
    rw [show regOf s c = s.whiteIds by unfold regOf; rw [if_pos hcc]]
    rw [removePiece_white] at hx
    by_cases hc : (getPiece s pid).color = 1
    · rw [if_pos hc] at hx; exact List.mem_of_mem_erase hx
    · rw [if_neg hc] at hx; exact hx
  · rw [show regOf (removePiece s pid) c = (removePiece s pid).blackIds by
      unfold regOf; rw [if_neg hcc]] at hx
    rw [show regOf s c = s.blackIds by unfold regOf; rw [if_neg hcc]]
    rw [removePiece_black] at hx
    by_cases hc : (getPiece s pid).color = 1
    · rw [if_pos hc] at hx; exact hx
    · rw [if_neg hc] at hx; exact List.mem_of_mem_erase hx

theorem removePiece_regOf_nodup (s : GameState) (pid : Nat) (c : Int)
    (h : (regOf s c).Nodup) : (regOf (removePiece s pid) c).Nodup := by
  by_cases hcc : c = 1
  · rw [show regOf (removePiece s pid) c = (removePiece s pid).whiteIds by
      unfold regOf; rw [if_pos hcc]]
    rw [show regOf s c = s.whiteIds by unfold regOf; rw [if_pos hcc]] at h
    rw [removePiece_white]
    by_cases hc : (getPiece s pid).color = 1
    · rw [if_pos hc]; exact h.erase pid
    · rw [if_neg hc]; exact h
  · rw [show regOf (removePiece s pid) c = (removePiece s pid).blackIds by
      unfold regOf; rw [if_neg hcc]]
    rw [show regOf s c = s.blackIds by unfold regOf; rw [if_neg hcc]] at h
    rw [removePiece_black]
    by_cases hc : (getPiece s pid).color = 1
    · rw [if_pos hc]; exact h
    · rw [if_neg hc]; exact h.erase pid

theorem addPiece_regOf_self (s : GameState) (pid : Nat)
    (hm : pid ∉ regOf s ((getPiece s pid).color)) :
    regOf (addPiece s pid) ((getPiece s pid).color)
      = regOf s ((getPiece s pid).color) ++ [pid] := by
  by_cases hc : (getPiece s pid).color = 1
  · rw [show regOf (addPiece s pid) ((getPiece s pid).color)
        = (addPiece s pid).whiteIds by unfold regOf; rw [if_pos hc]]
    rw [show regOf s ((getPiece s pid).color) = s.whiteIds by
      unfold regOf; rw [if_pos hc]] at hm ⊢
    rw [addPiece_white, if_pos ⟨hc, hm⟩]
  · rw [show regOf (addPiece s pid) ((getPiece s pid).color)
        = (addPiece s pid).blackIds by unfold regOf; rw [if_neg hc]]
    rw [show regOf s ((getPiece s pid).color) = s.blackIds by
      unfold regOf; rw [if_neg hc]] at hm ⊢
    rw [addPiece_black, if_pos ⟨hc, hm⟩]

theorem getPiece_congr {s t : GameState} (h : s.pieces = t.pieces)
    (pid : Nat) : getPiece s pid = getPiece t pid := by
  unfold getPiece; rw [h]


theorem promoTailFacts (s Y : GameState) (pid : Nat) (cur dst : Tile)
    (q : Piece)
    (hlt : pid < s.pieces.length)
    (hqc : q.color = (getPiece s pid).color)
    (hYp : Y.pieces = s.pieces ++ [q])
    (hYb : Y.board = s.board)
    (hYsub : ∀ x, x ∈ regOf Y ((getPiece s pid).color)
      → x ∈ regOf s ((getPiece s pid).color))
    (hYnd : (regOf Y ((getPiece s pid).color)).Nodup)
    (hnew : s.pieces.length ∉ regOf s ((getPiece s pid).color))
    (hne : cur ≠ dst)
    (hinb : 0 ≤ dst.1 ∧ dst.1 ≤ 7 ∧ 0 ≤ dst.2 ∧ dst.2 ≤ 7)
    (hbok : BoardOK s.board) :
    pid ∉ regOf (bset (bset (addPiece (removePiece Y pid) s.pieces.length)
        dst (some s.pieces.length)) cur none) ((getPiece s pid).color) ∧
    s.pieces.length ∈ regOf (bset (bset (addPiece (removePiece Y pid)
        s.pieces.length) dst (some s.pieces.length)) cur none)
        ((getPiece s pid).color) ∧
    getCell (bset (bset (addPiece (removePiece Y pid) s.pieces.length)
        dst (some s.pieces.length)) cur none).board dst
      = some s.pieces.length ∧
    getCell (bset (bset (addPiece (removePiece Y pid) s.pieces.length)
        dst (some s.pieces.length)) cur none).board cur = none ∧
    getPiece (bset (bset (addPiece (removePiece Y pid) s.pieces.length)
        dst (some s.pieces.length)) cur none) s.pieces.length = q := by
  have hYpid : getPiece Y pid = getPiece s pid := by
    unfold getPiece; rw [hYp, lget_append_left _ _ _ hlt]
  have hYcol : (getPiece Y pid).color = (getPiece s pid).color := by rw [hYpid]
  have hreg3 : regOf (removePiece Y pid) ((getPiece s pid).color)
      = (regOf Y ((getPiece s pid).color)).erase pid := by
    have h := removePiece_regOf_self Y pid
    rw [hYcol] at h
    exact h
  have h3p : (removePiece Y pid).pieces = Y.pieces := (removePiece_frame _ _).2.1
  have hq3 : getPiece (removePiece Y pid) s.pieces.length = q := by
    unfold getPiece; rw [h3p, hYp, lget_append_len]; rfl
  have hnotmem : s.pieces.length ∉ regOf (removePiece Y pid) ((getPiece s pid).color) := by
    rw [hreg3]
    intro hmem
    exact hnew (hYsub _ (List.mem_of_mem_erase hmem))
  have hreg4 : regOf (addPiece (removePiece Y pid) s.pieces.length)
      ((getPiece s pid).color)
      = (regOf Y ((getPiece s pid).color)).erase pid ++ [s.pieces.length] := by
    have h := addPiece_regOf_self (removePiece Y pid) s.pieces.length
      (by rw [hq3, hqc]; exact hnotmem)
    rw [hq3, hqc] at h
    rw [h, hreg3]
  have hFINr : regOf (bset (bset (addPiece (removePiece Y pid) s.pieces.length)
      dst (some s.pieces.length)) cur none) ((getPiece s pid).color)
      = (regOf Y ((getPiece s pid).color)).erase pid ++ [s.pieces.length] := hreg4
  have hFb : (bset (bset (addPiece (removePiece Y pid) s.pieces.length)
      dst (some s.pieces.length)) cur none).board
      = setCell (setCell s.board dst (some s.pieces.length)) cur none := by
    show setCell (setCell (addPiece (removePiece Y pid) s.pieces.length).board
      dst (some s.pieces.length)) cur none = _
    rw [(addPiece_frame _ _).1, (removePiece_frame _ _).1, hYb]
  have hFp : (bset (bset (addPiece (removePiece Y pid) s.pieces.length)
      dst (some s.pieces.length)) cur none).pieces = Y.pieces := by
    show (addPiece (removePiece Y pid) s.pieces.length).pieces = _
    rw [(addPiece_frame _ _).2.1, (removePiece_frame _ _).2.1]
  refine ⟨?_, ?_, ?_, ?_, ?_⟩
  · rw [hFINr]
    intro hmem
    rcases List.mem_append.mp hmem with hx | hx
    · exact absurd ((List.Nodup.mem_erase_iff hYnd).mp hx).1 (by simp)
    · have : pid = s.pieces.length := List.mem_singleton.mp hx
      omega
  · rw [hFINr]
    exact List.mem_append_right _ (List.mem_singleton_self _)
  · rw [hFb, getCell_setCell_ne _ _ _ _ (Ne.symm hne)]
    exact getCell_setCell_self _ _ _ hbok hinb
  · rw [hFb]
    by_cases hcb : 0 ≤ cur.1 ∧ cur.1 ≤ 7 ∧ 0 ≤ cur.2 ∧ cur.2 ≤ 7
    · exact getCell_setCell_self _ _ _ (boardOK_setCell _ _ _ hbok) hcb
    · exact getCell_oob _ _ hcb
  · unfold getPiece
    rw [hFp, hYp, lget_append_len]
    rfl

/-- C1: the spec says the just-double-moved flag is cleared as soon as
any half-move is executed by either side, so en passant is pseudo-legal
on the immediately following ply and on no later ply.  The code only
ever touches the flag of the pawn that is itself moving (Pawn.move_piece
lines 528-532), so the flag survives other half-moves: from c1State,
after white plays (6,4)-(4,4) the adjacent black pawn is offered the
en-passant square (5,4) in the window (correct), but after the further
half-moves (0,1)-(2,2) by black and (7,4)-(7,5) by white the white pawn
still has just_moved set and (5,4) is offered to the black pawn again,
two plies late.  All three half-moves are accepted by the game loop. -/
theorem c1_justDoubleMoved_flag_persists :
    (playMove c1Start (6, 4) (4, 4)).isSome = true ∧
    (playMove c1s1 (0, 1) (2, 2)).isSome = true ∧
    (playMove c1s2 (7, 4) (7, 5)).isSome = true ∧
    ((5 : Int), (4 : Int)) ∈ (getPiece c1s1 3).availableMoves ∧
    (getPiece c1s2 0).justMoved = true ∧
    ((5 : Int), (4 : Int)) ∈ (getPiece c1s3 3).availableMoves := by
  exact ⟨by decide, by decide, by decide, by decide, by decide, by decide⟩

/-- C2: the spec says a destination is removed if and only if simulating
the move leaves the own king attacked.  In c2State the pinned white rook
may capture the pinning black rook on (1,4): the capture is pseudo-legal
and the spec-side simulation leaves the white king unattacked, yet the
not-in-check filter removes it, because its simulation (lines 364-373)
keeps the captured attacker alive and lets it recompute moves from its
old square through the vacated origin. -/
theorem c2_pinned_capture_of_pinner_removed :
    ((1 : Int), (4 : Int)) ∈ computeMoves c2State 1 ∧
    (updateAvailableMoves c2State 3).2 = "move" ∧
    ((1 : Int), (4 : Int)) ∉ (getPiece c2After 1).availableMoves ∧
    specKingAttackedAfterMove c2State 1 (1, 4) = false := by
  exact ⟨by decide, by decide, by decide, by decide⟩

/-- C3: the spec says a move that captures the checking piece but leaves
the king attacked by a different piece must still be removed.  In
c3State the white knight is pinned by the black bishop and the black
knight gives check; capturing the checker on (5,5) leaves the king
attacked by the bishop (spec simulation true), yet the in-check filter
keeps exactly that move, because line 330 skips the simulation whenever
the destination equals the checker tile. -/
theorem c3_capture_of_checker_kept_despite_exposure :
    (updateAvailableMoves c3State 2).2 = "check" ∧
    (getPiece c3After 1).availableMoves = [(5, 5)] ∧
    specKingAttackedAfterMove c3State 1 (5, 5) = true := by
  exact ⟨by decide, by decide, by decide⟩

/-- C4: the claim requires the corresponding rook to be still present on
the board for a castling destination to be added.  In c4State the white
kingside rook (piece 1) is captured: it is neither on the board nor in
the white registry, only the king still references it and its first-move
flag is still true; King._check_castling nevertheless adds (7,6) to the
king move set, since it never checks rook presence. -/
theorem c4_castling_added_without_rook_present :
    ((7 : Int), (6 : Int)) ∈ (getPiece c4After 0).availableMoves ∧
    (getPiece c4State 0).rookRight = some 1 ∧
    (getPiece c4State 0).firstMove = true ∧
    (getPiece c4State 1).firstMove = true ∧
    getCell c4State.board (7, 7) = none ∧
    1 ∉ c4State.whiteIds ∧
    (c4State.board.all fun row => row.all fun c => decide (c ≠ some 1)) = true := by
  exact ⟨by decide, by decide, by decide, by decide, by decide, by decide, by decide⟩

/-- C5: the spec invariant says the union of one colour's legal
destinations never contains a tile occupied by that same colour.  The
position c5State is reached from the standard initial position by the
nine engine-legal plies listed at its definition; executing the tenth
legal ply (0,6)-(2,5) and letting the legality filter compute the white
legal sets leaves the white e-pawn with the en-passant destination
(2,3) — a tile occupied by the white knight — because the stale
just-double-moved flag of C1 resurrects an expired en-passant offer
whose target square has meanwhile been occupied. -/
theorem c5_legal_set_contains_own_occupied_tile : c5check = true := by decide

/-- C6 counterexample: the claim says every simulate-and-restore step of
the legality filter leaves the GameState bit-for-bit identical.  One
simulation step of remove_moves_of_king_that_chess_him on c6Pre (the
loop state of c6State) does not: after the step the king tile field
still holds the simulated square and the black rook availableMoves cache
holds the moves recomputed inside the hypothetical position. -/
theorem c6_simulation_not_bit_for_bit :
    (kingSimBody 0 c6Pre (7, 5)).1 ≠ c6Pre := by decide

/-- C6 amended: the legality filter simulations are not bit-for-bit
transactional (see the counterexample: availableMoves caches and the
mid-loop king tile survive a step, and the checking piece is re-appended
at the end of its registry), but after a full call of either cited
function the board grid, every piece field other than the availableMoves
caches, and the registry memberships are restored exactly; in
remove_moves_of_king_that_chess_him even the registries are untouched.
The hypotheses say the board is consistent at the tiles involved: the
king sits on its own tile; the checker and the defender piece sit on
their distinct tiles, and the checker is registered once. -/
theorem c6_amended_core_state_restored (s : GameState) (kid : Nat)
    (hc : getCell s.board (getPiece s kid).tile = some kid)
    (t : GameState) (mc : Int) (oppId checkerId : Nat)
    (h1 : getCell t.board (getPiece t checkerId).tile = some checkerId)
    (h2 : getCell t.board (getPiece t oppId).tile = some oppId)
    (h3 : (getPiece t oppId).tile ≠ (getPiece t checkerId).tile)
    (h4 : checkerId ∈ regOf t (getPiece t checkerId).color)
    (h5 : (regOf t (getPiece t checkerId).color).Nodup) :
    ((removeMovesOfKingThatChessHim s kid).board = s.board ∧
     (removeMovesOfKingThatChessHim s kid).whiteIds = s.whiteIds ∧
     (removeMovesOfKingThatChessHim s kid).blackIds = s.blackIds ∧
     (removeMovesOfKingThatChessHim s kid).pieces.map coreOf
       = s.pieces.map coreOf) ∧
    ((removesMovesThatDoesntProtectKing t mc oppId checkerId).board = t.board ∧
     (removesMovesThatDoesntProtectKing t mc oppId checkerId).pieces.map coreOf
       = t.pieces.map coreOf ∧
     (∀ x, x ∈ (removesMovesThatDoesntProtectKing t mc oppId checkerId).whiteIds
       ↔ x ∈ t.whiteIds) ∧
     (∀ x, x ∈ (removesMovesThatDoesntProtectKing t mc oppId checkerId).blackIds
       ↔ x ∈ t.blackIds)) :=
  ⟨kingFilterRestore s kid hc,
   protectFilterRestore t mc oppId checkerId h1 h2 h3 h4 h5⟩

/-- Witness for the amended C6 at the concrete positions c6State (king
filter) and c6bState (single-check filter). -/
theorem c6_amended_witness :
    (getCell c6State.board (getPiece c6State 0).tile = some 0 ∧
     getCell c6bState.board (getPiece c6bState 2).tile = some 2 ∧
     getCell c6bState.board (getPiece c6bState 1).tile = some 1 ∧
     (getPiece c6bState 1).tile ≠ (getPiece c6bState 2).tile ∧
     2 ∈ regOf c6bState (getPiece c6bState 2).color ∧
     (regOf c6bState (getPiece c6bState 2).color).Nodup) ∧
    (((removeMovesOfKingThatChessHim c6State 0).board = c6State.board ∧
      (removeMovesOfKingThatChessHim c6State 0).whiteIds = c6State.whiteIds ∧
      (removeMovesOfKingThatChessHim c6State 0).blackIds = c6State.blackIds ∧
      (removeMovesOfKingThatChessHim c6State 0).pieces.map coreOf
        = c6State.pieces.map coreOf) ∧
     ((removesMovesThatDoesntProtectKing c6bState (-1) 1 2).board = c6bState.board ∧
      (removesMovesThatDoesntProtectKing c6bState (-1) 1 2).pieces.map coreOf
        = c6bState.pieces.map coreOf ∧
      (∀ x, x ∈ (removesMovesThatDoesntProtectKing c6bState (-1) 1 2).whiteIds
        ↔ x ∈ c6bState.whiteIds) ∧
      (∀ x, x ∈ (removesMovesThatDoesntProtectKing c6bState (-1) 1 2).blackIds
        ↔ x ∈ c6bState.blackIds))) :=
  ⟨⟨by decide, by decide, by decide, by decide, by decide, by decide⟩,
   c6_amended_core_state_restored c6State 0 (by decide) c6bState (-1) 1 2
     (by decide) (by decide) (by decide) (by decide) (by decide)⟩

/-- C7: in the in-check branch, when the identified checking piece is
temporarily removed and the king is still attacked (the double-check
test at lines 324-326), the non-king defender piece handed to
removes_moves_that_doesnt_protect_king is assigned the empty move set,
and the restoration steps that follow do not change that. -/
theorem c7_double_check_empties_nonking_moves (s : GameState)
    (movedColor : Int) (oppId checkerId : Nat)
    (hlen : oppId < s.pieces.length)
    (hdbl : (kingInChess (removePiece
        (bset s (getPiece s checkerId).tile none) checkerId)
        (getKing s (-movedColor))).2 = true) :
    (getPiece (removesMovesThatDoesntProtectKing s movedColor oppId checkerId)
      oppId).availableMoves = [] := by
  set K := getKing s (-movedColor) with hK
  set ct := (getPiece s checkerId).tile with hct
  set R := kingInChess (removePiece (bset s ct none) checkerId) K with hR
  have hEq : removesMovesThatDoesntProtectKing s movedColor oppId checkerId
      = addPiece (bset (if R.2 then setMoves R.1 oppId []
          else protectElse R.1 K checkerId oppId ct) ct (some checkerId))
          checkerId := rfl
  rw [hEq, if_pos hdbl]
  have hgp : getPiece (addPiece (bset (setMoves R.1 oppId []) ct
      (some checkerId)) checkerId) oppId = getPiece (setMoves R.1 oppId []) oppId :=
    getPiece_congr ((addPiece_frame _ _).2.1) oppId
  rw [hgp]
  have hplen : R.1.pieces.length = s.pieces.length := by
    have hcx := (kingInChess_frame (removePiece (bset s ct none) checkerId) K).2.2.2
    have h1 := congrArg List.length hcx
    simp only [List.length_map] at h1
    rw [h1, (removePiece_frame _ _).2.1]
    rfl
  have hlen2 : oppId < R.1.pieces.length := by omega
  show (((R.1.pieces.set oppId
    { getPiece R.1 oppId with availableMoves := [] }).get? oppId).getD
    defaultPiece).availableMoves = []
  rw [lget_set_self _ _ _ hlen2]
  rfl

/-- Witness for C7 at the double-check position c7State: removing the
checking black rook 2 still leaves the white king attacked by the black
knight 3, and the filter empties the white rook 1 move set. -/
theorem c7_double_check_witness :
    (1 < c7State.pieces.length ∧
     (kingInChess (removePiece
        (bset c7State (getPiece c7State 2).tile none) 2)
        (getKing c7State (-(-1 : Int)))).2 = true) ∧
    (getPiece (removesMovesThatDoesntProtectKing c7State (-1) 1 2)
      1).availableMoves = [] :=
  ⟨⟨by decide, by decide⟩,
   c7_double_check_empties_nonking_moves c7State (-1) 1 2 (by decide) (by decide)⟩

/-- C9: the move-application fragment of Game.run rejects a request
whose destination is not in the availableMoves cache of the piece at the
source tile (or whose source holds no piece) without touching the
GameState, and reports no move: either a move fully executes or the
state is returned unchanged. -/
theorem c9_illegal_request_leaves_state_unchanged (s : GameState)
    (src dst : Tile)
    (h : (getCell s.board src).all
      (fun pid => decide (dst ∉ (getPiece s pid).availableMoves)) = true) :
    (applyMoveRequest s src dst).1 = s ∧
    (applyMoveRequest s src dst).2 = none := by
  unfold applyMoveRequest
  cases hc : getCell s.board src with
  | none => exact ⟨rfl, rfl⟩
  | some pid =>
    rw [hc] at h
    simp only [Option.all] at h
    have hmem : dst ∉ (getPiece s pid).availableMoves := of_decide_eq_true h
    dsimp only
    rw [if_neg hmem]
    exact ⟨rfl, rfl⟩

/-- Witness for C9 at c9State: the source (4,4) holds the white rook 0,
whose cached move set does not contain (0,0), so the request is rejected
and the state is returned unchanged with no move report. -/
theorem c9_reject_witness :
    (getCell c9State.board (4, 4) = some 0 ∧
     ((0 : Int), (0 : Int)) ∉ (getPiece c9State 0).availableMoves ∧
     (getCell c9State.board (4, 4)).all
      (fun pid => decide (((0 : Int), (0 : Int)) ∉ (getPiece c9State pid).availableMoves)) = true) ∧
    (applyMoveRequest c9State (4, 4) (0, 0)).1 = c9State ∧
    (applyMoveRequest c9State (4, 4) (0, 0)).2 = none :=
  ⟨⟨by decide, by decide, by decide⟩,
   (c9_illegal_request_leaves_state_unchanged c9State (4, 4) (0, 0) (by decide)).1,
   (c9_illegal_request_leaves_state_unchanged c9State (4, 4) (0, 0) (by decide)).2⟩

/-- C8: when a pawn move ends on row 0 or 7, Pawn.move_piece removes the
pawn from its registry and installs a fresh queen of the same colour on
the destination tile, with the first-move flag already cleared, vacating
the origin, and the tag returned is the capture/move classification
computed on the board before the substitution. -/
theorem c8_promotion_replaces_pawn_with_queen (s : GameState) (pid : Nat)
    (cur dst : Tile)
    (hk : (getPiece s pid).kind = Kind.pawn)
    (hrow : dst.1 = 0 ∨ dst.1 = 7)
    (hlt : pid < s.pieces.length)
    (hne : cur ≠ dst)
    (hnd : (regOf s ((getPiece s pid).color)).Nodup)
    (hnew : s.pieces.length ∉ regOf s ((getPiece s pid).color))
    (hinb : 0 ≤ dst.1 ∧ dst.1 ≤ 7 ∧ 0 ≤ dst.2 ∧ dst.2 ≤ 7)
    (hbok : BoardOK s.board) :
    (movePieceById s pid cur dst).2 = getModMove s dst ∧
    pid ∉ regOf (movePieceById s pid cur dst).1 ((getPiece s pid).color) ∧
    s.pieces.length ∈ regOf (movePieceById s pid cur dst).1
      ((getPiece s pid).color) ∧
    getCell (movePieceById s pid cur dst).1.board dst = some s.pieces.length ∧
    getCell (movePieceById s pid cur dst).1.board cur = none ∧
    getPiece (movePieceById s pid cur dst).1 s.pieces.length
      = { kind := Kind.queen, color := (getPiece s pid).color, tile := dst,
          firstMove := false, availableMoves := [], justMoved := false,
          rookLeft := none, rookRight := none } := by
  have hdisp : movePieceById s pid cur dst = movePiecePawn s pid cur dst := by
    unfold movePieceById
    rw [hk]
  cases hcell : getCell s.board dst with
  | none =>
    have hEq : movePiecePawn s pid cur dst
        = (bset (bset (addPiece (removePiece
            ({ s with pieces := s.pieces ++
              [{ kind := Kind.queen, color := (getPiece s pid).color,
                 tile := dst, firstMove := false, availableMoves := [],
                 justMoved := false, rookLeft := none, rookRight := none }] })
            pid) s.pieces.length) dst (some s.pieces.length)) cur none,
            getModMove s dst) := by
      unfold movePiecePawn
      dsimp only
      rw [if_pos hrow]
      rw [show getCell ({ s with pieces := s.pieces ++
            [{ kind := Kind.queen, color := (getPiece s pid).color,
               tile := dst, firstMove := false, availableMoves := [],
               justMoved := false, rookLeft := none, rookRight := none }] }
            : GameState).board dst = none from hcell]
    obtain ⟨pA, pB, pC, pD, pE⟩ := promoTailFacts s
      ({ s with pieces := s.pieces ++
        [{ kind := Kind.queen, color := (getPiece s pid).color, tile := dst,
           firstMove := false, availableMoves := [], justMoved := false,
           rookLeft := none, rookRight := none }] }) pid cur dst
      ({ kind := Kind.queen, color := (getPiece s pid).color, tile := dst,
         firstMove := false, availableMoves := [], justMoved := false,
         rookLeft := none, rookRight := none })
      hlt rfl rfl rfl (fun x hx => hx) hnd hnew hne hinb hbok
    rw [hdisp, hEq]
    exact ⟨rfl, pA, pB, pC, pD, pE⟩
  | some e =>
    have hEq : movePiecePawn s pid cur dst
        = (bset (bset (addPiece (removePiece (removePiece
            ({ s with pieces := s.pieces ++
              [{ kind := Kind.queen, color := (getPiece s pid).color,
                 tile := dst, firstMove := false, availableMoves := [],
                 justMoved := false, rookLeft := none, rookRight := none }] })
            e) pid) s.pieces.length) dst (some s.pieces.length)) cur none,
            getModMove s dst) := by
      unfold movePiecePawn
      dsimp only
      rw [if_pos hrow]
      rw [show getCell ({ s with pieces := s.pieces ++
            [{ kind := Kind.queen, color := (getPiece s pid).color,
               tile := dst, firstMove := false, availableMoves := [],
               justMoved := false, rookLeft := none, rookRight := none }] }
            : GameState).board dst = some e from hcell]
    obtain ⟨pA, pB, pC, pD, pE⟩ := promoTailFacts s
      (removePiece ({ s with pieces := s.pieces ++
        [{ kind := Kind.queen, color := (getPiece s pid).color, tile := dst,
           firstMove := false, availableMoves := [], justMoved := false,
           rookLeft := none, rookRight := none }] }) e) pid cur dst
      ({ kind := Kind.queen, color := (getPiece s pid).color, tile := dst,
         firstMove := false, availableMoves := [], justMoved := false,
         rookLeft := none, rookRight := none })
      hlt rfl ((removePiece_frame _ _).2.1) ((removePiece_frame _ _).1)
      (fun x hx => removePiece_regOf_subset
        ({ s with pieces := s.pieces ++
          [{ kind := Kind.queen, color := (getPiece s pid).color, tile := dst,
             firstMove := false, availableMoves := [], justMoved := false,
             rookLeft := none, rookRight := none }] }) e
        ((getPiece s pid).color) x hx)
      (removePiece_regOf_nodup _ _ _ hnd) hnew hne hinb hbok
    rw [hdisp, hEq]
    exact ⟨rfl, pA, pB, pC, pD, pE⟩

/-- Witness for C8 at c8State: the white pawn 0 on (1,3) promotes on the
empty square (0,3); the tag is the pre-substitution classification
"move", pawn 0 leaves the white registry, and the new queen 3 stands on
(0,3) with first-move false. -/
theorem c8_promotion_witness :
    ((getPiece c8State 0).kind = Kind.pawn ∧
     ((0 : Int) = 0 ∨ (0 : Int) = 7) ∧
     0 < c8State.pieces.length ∧
     ((1 : Int), (3 : Int)) ≠ ((0 : Int), (3 : Int)) ∧
     (regOf c8State ((getPiece c8State 0).color)).Nodup ∧
     c8State.pieces.length ∉ regOf c8State ((getPiece c8State 0).color) ∧
     BoardOK c8State.board) ∧
    ((movePieceById c8State 0 (1, 3) (0, 3)).2 = getModMove c8State (0, 3) ∧
     0 ∉ regOf (movePieceById c8State 0 (1, 3) (0, 3)).1
       ((getPiece c8State 0).color) ∧
     c8State.pieces.length ∈ regOf (movePieceById c8State 0 (1, 3) (0, 3)).1
       ((getPiece c8State 0).color) ∧
     getCell (movePieceById c8State 0 (1, 3) (0, 3)).1.board (0, 3)
       = some c8State.pieces.length ∧
     getCell (movePieceById c8State 0 (1, 3) (0, 3)).1.board (1, 3) = none ∧
     getPiece (movePieceById c8State 0 (1, 3) (0, 3)).1 c8State.pieces.length
       = { kind := Kind.queen, color := (getPiece c8State 0).color,
           tile := (0, 3), firstMove := false, availableMoves := [],
           justMoved := false, rookLeft := none, rookRight := none }) :=
  ⟨⟨by decide, by decide, by decide, by decide, by decide, by decide, by decide⟩,
   c8_promotion_replaces_pawn_with_queen c8State 0 (1, 3) (0, 3) (by decide)
     (by decide) (by decide) (by decide) (by decide) (by decide) (by decide)
     (by decide)⟩


/-- C10: an en-passant execution (pawn moving diagonally onto an empty,
non-promotion square) removes the bypassed enemy pawn behind the
destination from the board and from its registry, yet the returned tag
is "move", because get_mod_move inspects only the destination square,
which is empty. -/
theorem c10_en_passant_tag_is_move (s : GameState) (pid vid : Nat)
    (cur dst : Tile)
    (hk : (getPiece s pid).kind = Kind.pawn)
    (hrow : ¬(dst.1 = 0 ∨ dst.1 = 7))
    (hempty : getCell s.board dst = none)
    (hdiag : dst.2 ≠ cur.2)
    (hvic : getCell s.board (dst.1 + (getPiece s pid).color, dst.2) = some vid)
    (hvd : (dst.1 + (getPiece s pid).color, dst.2) ≠ dst)
    (hvc : (dst.1 + (getPiece s pid).color, dst.2) ≠ cur)
    (hpv : pid ≠ vid)
    (hnd : (regOf s ((getPiece s vid).color)).Nodup)
    (hbok : BoardOK s.board) :
    (movePieceById s pid cur dst).2 = "move" ∧
    vid ∉ regOf (movePieceById s pid cur dst).1 ((getPiece s vid).color) ∧
    getCell (movePieceById s pid cur dst).1.board
      (dst.1 + (getPiece s pid).color, dst.2) = none := by
  have hdisp : movePieceById s pid cur dst = movePiecePawn s pid cur dst := by
    unfold movePieceById
    rw [hk]
  have hXb : ∀ b : Bool, (setJust s pid b).board = s.board := fun _ => rfl
  have hXw : ∀ b : Bool, (setJust s pid b).whiteIds = s.whiteIds := fun _ => rfl
  have hXk : ∀ b : Bool, (setJust s pid b).blackIds = s.blackIds := fun _ => rfl
  have hXv : ∀ b : Bool, getPiece (setJust s pid b) vid = getPiece s vid := by
    intro b
    unfold setJust getPiece
    dsimp only
    rw [lget_set_ne _ _ _ _ hpv]
  have hmain : ∀ X : GameState,
      X.board = s.board → X.whiteIds = s.whiteIds → X.blackIds = s.blackIds →
      getPiece X vid = getPiece s vid →
      (movePieceBase (bset (removePiece X vid)
          (dst.1 + (getPiece s pid).color, dst.2) none) pid cur dst).2 = "move" ∧
      vid ∉ regOf (movePieceBase (bset (removePiece X vid)
          (dst.1 + (getPiece s pid).color, dst.2) none) pid cur dst).1
          ((getPiece s vid).color) ∧
      getCell (movePieceBase (bset (removePiece X vid)
          (dst.1 + (getPiece s pid).color, dst.2) none) pid cur dst).1.board
          (dst.1 + (getPiece s pid).color, dst.2) = none := by
    intro X hb hw hk2 hv
    have hs2b : (bset (removePiece X vid)
        (dst.1 + (getPiece s pid).color, dst.2) none).board
        = setCell s.board (dst.1 + (getPiece s pid).color, dst.2) none := by
      show setCell (removePiece X vid).board _ none = _
      rw [(removePiece_frame _ _).1, hb]
    have hs2dst : getCell (bset (removePiece X vid)
        (dst.1 + (getPiece s pid).color, dst.2) none).board dst = none := by
      rw [hs2b, getCell_setCell_ne _ _ _ _ (Ne.symm hvd)]
      exact hempty
    have hregs2 : regOf (bset (removePiece X vid)
        (dst.1 + (getPiece s pid).color, dst.2) none) ((getPiece s vid).color)
        = (regOf s ((getPiece s vid).color)).erase vid := by
      have h := removePiece_regOf_self X vid
      rw [hv] at h
      have hXreg : regOf X ((getPiece s vid).color)
          = regOf s ((getPiece s vid).color) := by
        unfold regOf
        by_cases hc : (getPiece s vid).color = 1
        · rw [if_pos hc, if_pos hc, hw]
        · rw [if_neg hc, if_neg hc, hk2]
      show regOf (removePiece X vid) ((getPiece s vid).color) = _
      rw [h, hXreg]
    have hbase : movePieceBase (bset (removePiece X vid)
        (dst.1 + (getPiece s pid).color, dst.2) none) pid cur dst
        = (let s0 := bset (removePiece X vid)
            (dst.1 + (getPiece s pid).color, dst.2) none
           let s4 := setTile (bset (bset s0 dst (some pid)) cur none) pid dst
           (if (getPiece s4 pid).firstMove then setFirst s4 pid false else s4,
            getModMove s0 dst)) := by
      show movePieceBase _ pid cur dst = _
      unfold movePieceBase
      dsimp only
      rw [show removePieceOpt (bset (removePiece X vid)
        (dst.1 + (getPiece s pid).color, dst.2) none)
        (getCell (bset (removePiece X vid)
          (dst.1 + (getPiece s pid).color, dst.2) none).board dst)
        = bset (removePiece X vid)
          (dst.1 + (getPiece s pid).color, dst.2) none by rw [hs2dst]; rfl]
    rw [hbase]
    dsimp only
    refine ⟨?_, ?_, ?_⟩
    · unfold getModMove
      rw [hs2dst]
    · have hfr : ∀ t : GameState, regOf (if (getPiece t pid).firstMove
          then setFirst t pid false else t) ((getPiece s vid).color)
          = regOf t ((getPiece s vid).color) := by
        intro t
        split
        · unfold regOf setFirst
          by_cases hc : (getPiece s vid).color = 1 <;> simp [hc]
        · rfl
      rw [hfr]
      show vid ∉ regOf (bset (removePiece X vid)
        (dst.1 + (getPiece s pid).color, dst.2) none) ((getPiece s vid).color)
      rw [hregs2]
      intro hmem
      exact absurd ((List.Nodup.mem_erase_iff hnd).mp hmem).1 (by simp)
    · have hfb : ∀ t : GameState, (if (getPiece t pid).firstMove
          then setFirst t pid false else t).board = t.board := by
        intro t
        split <;> rfl
      rw [hfb]
      show getCell (setCell (setCell (bset (removePiece X vid)
        (dst.1 + (getPiece s pid).color, dst.2) none).board dst (some pid))
        cur none) (dst.1 + (getPiece s pid).color, dst.2) = none
      rw [getCell_setCell_ne _ _ _ _ hvc, getCell_setCell_ne _ _ _ _ hvd,
        hs2b]
      exact getCell_setCell_self _ _ _ hbok
        (getCell_some_bounds _ _ _ hvic)
  have hEq : movePiecePawn s pid cur dst
      = movePieceBase (bset (removePiece
          (if (dst.1 - cur.1).natAbs = 2 ∧ (getPiece s pid).firstMove
           then setJust s pid true else setJust s pid false) vid)
          (dst.1 + (getPiece s pid).color, dst.2) none) pid cur dst := by
    unfold movePiecePawn
    dsimp only
    rw [if_neg hrow]
    have hcond : getCell (if (dst.1 - cur.1).natAbs = 2 ∧ (getPiece s pid).firstMove
        then setJust s pid true else setJust s pid false).board dst = none
        ∧ dst.2 ≠ cur.2 := by
      constructor
      · have : (if (dst.1 - cur.1).natAbs = 2 ∧ (getPiece s pid).firstMove
            then setJust s pid true else setJust s pid false).board = s.board := by
          split <;> rfl
        rw [this]
        exact hempty
      · exact hdiag
    rw [if_pos hcond]
    have hvx : getCell (if (dst.1 - cur.1).natAbs = 2 ∧ (getPiece s pid).firstMove
        then setJust s pid true else setJust s pid false).board
        (dst.1 + (getPiece s pid).color, dst.2) = some vid := by
      have : (if (dst.1 - cur.1).natAbs = 2 ∧ (getPiece s pid).firstMove
          then setJust s pid true else setJust s pid false).board = s.board := by
        split <;> rfl
      rw [this]
      exact hvic
    rw [hvx]
    rfl
  rw [hdisp, hEq]
  have hsplit : ∀ b : Bool,
      (if (dst.1 - cur.1).natAbs = 2 ∧ (getPiece s pid).firstMove
       then setJust s pid true else setJust s pid false) = setJust s pid true ∨
      (if (dst.1 - cur.1).natAbs = 2 ∧ (getPiece s pid).firstMove
       then setJust s pid true else setJust s pid false) = setJust s pid false := by
    intro _
    split
    · left; rfl
    · right; rfl
  rcases hsplit true with hx | hx <;> rw [hx]
  · exact hmain (setJust s pid true) (hXb true) (hXw true) (hXk true) (hXv true)
  · exact hmain (setJust s pid false) (hXb false) (hXw false) (hXk false) (hXv false)

/-- Witness for C10 at c10State: white pawn 0 on (3,4) captures en
passant onto the empty (2,3); the black pawn 1 on (3,3) disappears from
board and registry while the tag stays "move". -/
theorem c10_en_passant_witness :
    ((getPiece c10State 0).kind = Kind.pawn ∧
     ¬(((2 : Int), (3 : Int)).1 = 0 ∨ ((2 : Int), (3 : Int)).1 = 7) ∧
     getCell c10State.board (2, 3) = none ∧
     ((2 : Int), (3 : Int)).2 ≠ ((3 : Int), (4 : Int)).2 ∧
     getCell c10State.board
       ((2 : Int) + (getPiece c10State 0).color, (3 : Int)) = some 1 ∧
     (regOf c10State ((getPiece c10State 1).color)).Nodup ∧
     BoardOK c10State.board) ∧
    ((movePieceById c10State 0 (3, 4) (2, 3)).2 = "move" ∧
     1 ∉ regOf (movePieceById c10State 0 (3, 4) (2, 3)).1
       ((getPiece c10State 1).color) ∧
     getCell (movePieceById c10State 0 (3, 4) (2, 3)).1.board
       ((2 : Int) + (getPiece c10State 0).color, (3 : Int)) = none) :=
  ⟨⟨by decide, by decide, by decide, by decide, by decide, by decide, by decide⟩,
   c10_en_passant_tag_is_move c10State 0 1 (3, 4) (2, 3) (by decide)
     (by decide) (by decide) (by decide) (by decide) (by decide) (by decide)
     (by decide) (by decide) (by decide)⟩


end Chess
